import Mathlib

/-!
Shallow embedding of `send_file.py` from the WordDumb calibre plugin fork.

The module moves Word Wise lookup databases, X-Ray databases and Word Wise
dictionary (`.klld`) files from the local machine to a Kindle device, either
over a mounted filesystem or over adb.  We model the local/mounted filesystem
as a finite map from paths (component lists) to file contents, and adb
side effects as a growing trace of issued commands together with an oracle
(`World`) that decides each subprocess's exit status and captured output.
Python exceptions are modelled with `Except`; every operation returns the
state it had produced so far alongside the outcome, which lets us reason
about partial effects of failed transfers.
-/

namespace WordDumb

/-- Filesystem paths, as lists of components (mirroring `pathlib.PurePath.parts`;
an absolute path starts with an empty component so that `pathStr` renders the
leading slash). -/
abbrev Path := List String

/-- An argv-style subprocess command, as passed to `run_subprocess`. -/
abbrev Cmd := List String

/-- File contents as a byte list; `is_same_klld` compares these byte-for-byte. -/
abbrev Content := List Nat

/-- Index of the last occurrence of `c` in `s`, like Python's `str.rfind`
(returning `none` instead of `-1`). -/
def strRfind (s : String) (c : Char) : Option Nat :=
  ((List.range s.toList.length).filter (fun i => s.toList.getD i ' ' = c)).getLast?

/-- Python's `pathlib.PurePath.stem` applied to a file name: the name without
its final suffix, where a suffix needs a dot that is neither the first nor the
last character. -/
def pathStem (name : String) : String :=
  match strRfind name '.' with
  | some i => if 0 < i ∧ i + 1 < name.toList.length then ⟨name.toList.take i⟩ else name
  | none => name

/-- Final component of a path (`PurePath.name`). -/
def pathName (p : Path) : String := p.getLastD ""

/-- Parent path (`PurePath.parent`). -/
def pathParent (p : Path) : Path := p.dropLast

/-- Rendering of a path as the string `str(path)` interpolated into commands. -/
def pathStr (p : Path) : String := ⟨List.intercalate ['/'] (p.map String.data)⟩

/-- Python `str.split(sep)` for a one-character separator, on character lists.
Structural recursion, so concrete executions reduce inside the kernel. -/
def splitChars (sep : Char) : List Char → List (List Char)
  | [] => [[]]
  | c :: rest =>
    let r := splitChars sep rest
    if c = sep then [] :: r
    else (c :: r.headD []) :: r.tail

/-- Conversion of a string path (such as `self.book_path`) to components. -/
def strToPath (s : String) : Path := (splitChars '/' s.data).map String.mk

/-- Final component of a string path: `Path(s).name`. -/
def strName (s : String) : String := ⟨(splitChars '/' s.data).getLastD []⟩

/-- Python `str.strip()` with no argument: whitespace removed from both ends. -/
def pyStrip (s : String) : String :=
  ⟨((s.data.dropWhile Char.isWhitespace).reverse.dropWhile Char.isWhitespace).reverse⟩

/-- Python `str.endswith`. -/
def strEndsWith (s t : String) : Bool :=
  decide (s.data.drop (s.data.length - t.data.length) = t.data)

/-- Python `str.replace` for one-character pattern and replacement. -/
def replaceChar (s : String) (a b : Char) : String :=
  ⟨s.data.map (fun c => if c = a then b else c)⟩

/-- Accumulator for `pySplitWs`: words of a character list. -/
def wordsAux (acc : List Char) : List Char → List (List Char)
  | [] => if acc.isEmpty then [] else [acc.reverse]
  | c :: rest =>
    if c.isWhitespace then
      if acc.isEmpty then wordsAux [] rest else acc.reverse :: wordsAux [] rest
    else wordsAux (c :: acc) rest

/-- Snapshot of the filesystems visible to the plugin (local disk plus the
mounted Kindle volume): regular files with their contents, and directories. -/
structure FS where
  files : List (Path × Content)
  dirs : List Path
deriving Repr, DecidableEq

/-- First-match association lookup over the file table. -/
def assocFind (l : List (Path × Content)) (p : Path) : Option Content :=
  match l with
  | [] => none
  | e :: l => if e.1 = p then some e.2 else assocFind l p

/-- Content of the file at `p`, if a file is there. -/
def FS.read (fs : FS) (p : Path) : Option Content := assocFind fs.files p

/-- Python `Path.is_file`. -/
def FS.isFile (fs : FS) (p : Path) : Bool := (fs.read p).isSome

/-- Python `Path.is_dir`. -/
def FS.isDir (fs : FS) (p : Path) : Bool := fs.dirs.contains p

/-- Python `Path.exists`: a file or a directory is at `p`. -/
def FS.pathExists (fs : FS) (p : Path) : Bool := fs.isFile p || fs.isDir p

/-- Removal of every entry for key `p` from the file table. -/
def eraseKey (l : List (Path × Content)) (p : Path) : List (Path × Content) :=
  match l with
  | [] => []
  | e :: l => if e.1 = p then eraseKey l p else e :: eraseKey l p

/-- Create or overwrite the file at `p` with content `c`. -/
def FS.write (fs : FS) (p : Path) (c : Content) : FS :=
  { fs with files := (p, c) :: eraseKey fs.files p }

/-- Python `Path.unlink`. -/
def FS.unlink (fs : FS) (p : Path) : FS :=
  { fs with files := eraseKey fs.files p }

/-- Python `Path.mkdir`. -/
def FS.mkdir (fs : FS) (p : Path) : FS := { fs with dirs := p :: fs.dirs }

/-- Effect of a successful `shutil.copy src dst` with `dst` a full file path.
With an absent source `shutil.copy` raises `FileNotFoundError`; the embedding
models that raise at the call site (`copy_klld_to_device` checks the source
before invoking this), so this definition covers the successful branch only. -/
def FS.copyFile (fs : FS) (src dst : Path) : FS :=
  match fs.read src with
  | some c => fs.write dst c
  | none => fs

/-- `shutil.move src dst` with `dst` a full file path: the destination receives
the source's bytes and the source entry disappears. -/
def FS.move (fs : FS) (src dst : Path) : FS :=
  match fs.read src with
  | some c => (fs.unlink src).write dst c
  | none => fs

theorem assocFind_eraseKey_self (l : List (Path × Content)) (p : Path) :
    assocFind (eraseKey l p) p = none := by
  induction l with
  | nil => rfl
  | cons e l ih =>
    by_cases h : e.1 = p
    · simpa [eraseKey, h] using ih
    · simp [eraseKey, h, assocFind, ih]

theorem assocFind_eraseKey_ne (l : List (Path × Content)) (p q : Path) (h : q ≠ p) :
    assocFind (eraseKey l p) q = assocFind l q := by
  induction l with
  | nil => rfl
  | cons e l ih =>
    by_cases he : e.1 = p
    · have hq : e.1 ≠ q := he ▸ Ne.symm h
      simp [eraseKey, he, assocFind, hq, ih, Ne.symm h]
    · by_cases hq : e.1 = q
      · simp [eraseKey, he, assocFind, hq, h]
      · simp [eraseKey, he, assocFind, hq, ih, h]

@[simp] theorem FS.read_write_self (fs : FS) (p : Path) (c : Content) :
    (fs.write p c).read p = some c := by
  simp [FS.read, FS.write, assocFind]

theorem FS.read_write_ne (fs : FS) (p q : Path) (c : Content) (h : q ≠ p) :
    (fs.write p c).read q = fs.read q := by
  simp [FS.read, FS.write, assocFind, Ne.symm h, assocFind_eraseKey_ne _ _ _ h]

@[simp] theorem FS.read_unlink_self (fs : FS) (p : Path) :
    (fs.unlink p).read p = none := by
  simp [FS.read, FS.unlink, assocFind_eraseKey_self]

theorem FS.read_unlink_ne (fs : FS) (p q : Path) (h : q ≠ p) :
    (fs.unlink p).read q = fs.read q := by
  simp [FS.read, FS.unlink, assocFind_eraseKey_ne _ _ _ h]

@[simp] theorem FS.dirs_write (fs : FS) (p : Path) (c : Content) :
    (fs.write p c).dirs = fs.dirs := rfl

@[simp] theorem FS.dirs_unlink (fs : FS) (p : Path) :
    (fs.unlink p).dirs = fs.dirs := rfl

@[simp] theorem FS.dirs_copyFile (fs : FS) (src dst : Path) :
    (fs.copyFile src dst).dirs = fs.dirs := by
  unfold FS.copyFile
  cases fs.read src <;> rfl

@[simp] theorem FS.dirs_move (fs : FS) (src dst : Path) :
    (fs.move src dst).dirs = fs.dirs := by
  unfold FS.move
  cases fs.read src <;> rfl

@[simp] theorem FS.isDir_mkdir_self (fs : FS) (p : Path) :
    (fs.mkdir p).isDir p = true := by
  simp [FS.isDir, FS.mkdir]

@[simp] theorem FS.files_mkdir (fs : FS) (p : Path) :
    (fs.mkdir p).files = fs.files := rfl

theorem FS.read_mkdir (fs : FS) (p q : Path) : (fs.mkdir p).read q = fs.read q := rfl

theorem FS.read_copyFile_ne (fs : FS) (src dst q : Path) (h : q ≠ dst) :
    (fs.copyFile src dst).read q = fs.read q := by
  unfold FS.copyFile
  cases hr : fs.read src with
  | none => rfl
  | some c => exact fs.read_write_ne dst q c h

theorem FS.read_move_dst (fs : FS) (src dst : Path) (h : fs.isFile src = true)
    (_hne : src ≠ dst) : (fs.move src dst).read dst = fs.read src := by
  unfold FS.move
  cases hr : fs.read src with
  | none => simp [FS.isFile, hr] at h
  | some c => simp

theorem FS.read_move_src (fs : FS) (src dst : Path) (hne : src ≠ dst) :
    (fs.move src dst).read src = none ∨ fs.read src = none := by
  unfold FS.move
  cases hr : fs.read src with
  | none => exact Or.inr rfl
  | some c =>
    left
    rw [FS.read_write_ne _ _ _ _ hne]
    simp

theorem FS.read_move_other (fs : FS) (src dst q : Path) (h1 : q ≠ src) (h2 : q ≠ dst) :
    (fs.move src dst).read q = fs.read q := by
  unfold FS.move
  cases hr : fs.read src with
  | none => rfl
  | some c => rw [FS.read_write_ne _ _ _ _ h2, FS.read_unlink_ne _ _ _ h1]

/-- Python exceptions that `send_file.py` can raise. -/
inductive PyFail
  /-- `subprocess.CalledProcessError` from a non-zero adb or privileged shell exit,
  carrying the failing command and its captured standard-error text. -/
  | calledProcessError (cmd : Cmd) (stderrText : String)
  /-- `UnboundLocalError`: `lemma_lang` read in `copy_klld_to_device` although no
  language-table entry matched. -/
  | unboundLocalError
  /-- `IndexError` from indexing the whitespace fields of the `ls -ldZ` output. -/
  | indexError
  /-- `FileNotFoundError`: `shutil.copy` called with a source file that does
  not exist. -/
  | fileNotFoundError
deriving Repr, DecidableEq

/-- Observable calls into the calibre GUI / device manager. -/
inductive Outcome
  /-- `self.gui.status_bar.show_message(self.notif)`. -/
  | statusMessage
  /-- `JobError(...).show_error(title, msg, det_msg=det)`. -/
  | errorDialog (title msg det : String)
  /-- `self.gui.job_exception(job, ...)` for a failed upload job. -/
  | jobException
  /-- `self.gui.books_uploaded(job)`. -/
  | booksUploaded
  /-- `self.gui.update_thumbnail(self.mi)`. -/
  | updateThumbnail
  /-- `self.device_manager.device.upload_kindle_thumbnail(...)`. -/
  | uploadKindleThumbnail
  /-- `self.device_manager.upload_books(...)` enqueued for the given source file. -/
  | uploadBooks (srcPath : String)
  /-- `kindle_epub_dialog(self.gui)`. -/
  | epubDialog
deriving Repr, DecidableEq

/-- Mutable state threaded through a transfer: the filesystem, the trace of
subprocess commands issued so far, the GUI calls made so far, the `language`
field of the calibre metadata object `self.mi`, and the language metadata
stored inside the on-device book file (written by `get_asin_etc`). -/
structure St where
  fs : FS
  trace : List Cmd
  out : List Outcome
  miLanguage : String
  deviceBookLanguage : Option String
deriving Repr, DecidableEq

/-- Environment oracle: everything the module reads from outside its own state.
Function fields answer subprocess questions (exit status, captured output);
the remaining fields model calibre state (`device_manager`, `book_on_device`)
and host helpers.  `mountRoot` models `device_manager.device._main_prefix`. -/
structure World where
  cmdFails : Cmd → Bool
  cmdStderr : Cmd → String
  cmdStdout : Cmd → String
  whichAdb : Option String
  isDevicePresent : Bool
  vendorName : Option String
  hasBook : Bool
  devicePaths : List Path
  mountRoot : Path
  asinNeedsUpdate : Bool
  tracebackText : String

/-- Static plugin data and user preferences consulted by dictionary provisioning. -/
structure Prefs where
  /-- Modelled from the spec: `use_kindle_ww_db` (in the utils module, not part of
  this snapshot) is "a user preference keyed by resolved language" selecting the
  device's built-in Word Wise database; we record the set of languages for which
  the preference is on. -/
  useKindleWwDbLangs : List String
  /-- `prefs["kindle_gloss_lang"]`. -/
  kindleGlossLang : String
deriving Repr, DecidableEq

/-- Plugin environment: the language table from `data/languages.json` as a list of
`(code, value["639-2"])` pairs in iteration order, the preferences, and the
plugin directory path. -/
structure Env where
  supportedLanguages : List (String × String)
  prefs : Prefs
  pluginPath : Path
deriving Repr, DecidableEq

/-- Modelled from the spec: `use_kindle_ww_db` from the utils module (not in this
snapshot) — true when the user preference for the resolved language selects the
device's own built-in dictionary. -/
def use_kindle_ww_db (lemmaLang : String) (prefs : Prefs) : Bool :=
  prefs.useKindleWwDbLangs.contains lemmaLang

/-- Modelled from the spec: `get_wiktionary_klld_path` from the utils module (not
in this snapshot) resolves "the local dictionary file path from the plugin's data
directory, the resolved language, and the user's configured gloss language". -/
def get_wiktionary_klld_path (pluginPath : Path) (lemmaLang glossLang : String) : Path :=
  pluginPath ++ ["data", "wordwise", s!"kll.{lemmaLang}.{glossLang}.klld"]

/-- Modelled from the spec: `is_same_klld` from the database module (not in this
snapshot) — the local and device dictionary files "are compared byte-for-byte". -/
def is_same_klld (fs : FS) (p q : Path) : Bool := fs.read p == fs.read q

/-- Modelled from the spec: `run_subprocess` from the utils module (not in this
snapshot) — runs the command, and "a non-zero exit is the sole failure
indicator": it raises `subprocess.CalledProcessError` carrying the captured
standard-error text, otherwise returns the captured standard output. -/
def run_subprocess (w : World) (st : St) (cmd : Cmd) : St × Except PyFail String :=
  let st' := { st with trace := st.trace ++ [cmd] }
  if w.cmdFails cmd then (st', .error (.calledProcessError cmd (w.cmdStderr cmd)))
  else (st', .ok (w.cmdStdout cmd))

/-- Exception-propagating sequencing of two stateful steps (Python statement
sequencing: an uncaught exception aborts the rest but keeps effects so far). -/
def bindE {α β : Type} (p : St × Except PyFail α) (f : St → α → St × Except PyFail β) :
    St × Except PyFail β :=
  match p with
  | (st, .error e) => (st, .error e)
  | (st, .ok a) => f st a

/-- First language-table entry whose `639-2` field equals the book language:
the `for code, value in supported_languages.items()` loop with `break`.
`none` means the loop finishes without assigning `lemma_lang`. -/
def lookupLemmaLang (table : List (String × String)) (bookLang : String) : Option String :=
  (table.find? (fun e => e.2 == bookLang)).map (fun e => e.1)

/-- `copy_klld_to_device(book_lang, device_klld_path, adb_path)`
(src/send_file.py lines 293-320).  When no table entry matches, reading
`lemma_lang` raises `UnboundLocalError`.  With an adb path the dictionary is
pushed unconditionally; on the mounted transport it is copied only when the
destination is absent or differs byte-for-byte, and a copy attempted with the
local dictionary file absent raises `FileNotFoundError` (from `shutil.copy`). -/
def copy_klld_to_device (w : World) (env : Env) (bookLang : String)
    (deviceKlldPath : Path) (adbPath : Option String) (st : St) :
    St × Except PyFail Unit :=
  match lookupLemmaLang env.supportedLanguages bookLang with
  | none => (st, .error .unboundLocalError)
  | some lemmaLang =>
    if use_kindle_ww_db lemmaLang env.prefs then (st, .ok ())
    else
      let localKlldPath := get_wiktionary_klld_path env.pluginPath lemmaLang
        env.prefs.kindleGlossLang
      match adbPath with
      | some adb =>
        bindE (run_subprocess w st [adb, "push", pathStr localKlldPath, pathStr deviceKlldPath])
          (fun st _ => (st, .ok ()))
      | none =>
        let copy : Bool :=
          if ¬ st.fs.pathExists deviceKlldPath then true
          else if ¬ is_same_klld st.fs localKlldPath deviceKlldPath then true
          else false
        if copy then
          if st.fs.isFile localKlldPath then
            ({ st with fs := st.fs.copyFile localKlldPath deviceKlldPath }, .ok ())
          else (st, .error .fileNotFoundError)
        else (st, .ok ())

/-- Book-describing fields of a `SendFile` instance (its `__init__` unpacking;
`acr` is already defaulted to `"_"` when the tuple carried `None`). -/
structure SendFileCfg where
  asin : String
  bookPath : String
  bookFmt : String
  acr : String
  llPath : Path
  xRayPath : Path
  packageName : Sum String Bool
deriving Repr, DecidableEq

/-- Sidecar directory computed in `move_file_to_kindle` (lines 141-143):
`device_book_path.parent.joinpath(f"{device_book_path.stem}.sdr")`. -/
def sidecarOf (deviceBookPath : Path) : Path :=
  pathParent deviceBookPath ++ [pathStem (pathName deviceBookPath) ++ ".sdr"]

/-- `SendFile.move_file_to_kindle` (lines 138-149). -/
def move_file_to_kindle (fs : FS) (filePath deviceBookPath : Path) : FS :=
  if ¬ fs.isFile filePath then fs
  else
    let sidecarFolder := sidecarOf deviceBookPath
    let fs1 := if ¬ fs.isDir sidecarFolder then fs.mkdir sidecarFolder else fs
    let dstPath := sidecarFolder ++ [pathName filePath]
    let fs2 := if fs1.isFile dstPath then fs1.unlink dstPath else fs1
    fs2.move filePath dstPath

/-- `SendFile.move_files_to_kindle` (lines 126-136): provision the dictionary
and move the lookup database when it exists, then move the X-Ray database. -/
def move_files_to_kindle (w : World) (env : Env) (cfg : SendFileCfg)
    (deviceMountPoint deviceBookPath : Path) (st : St) : St × Except PyFail Unit :=
  bindE
    (if st.fs.pathExists cfg.llPath then
      bindE (copy_klld_to_device w env st.miLanguage
              (deviceMountPoint ++ ["system", "kll", "kll.en.zh.klld"]) none st)
        (fun st _ =>
          ({ st with fs := move_file_to_kindle st.fs cfg.llPath deviceBookPath }, .ok ()))
    else (st, .ok ()))
    (fun st _ =>
      ({ st with fs := move_file_to_kindle st.fs cfg.xRayPath deviceBookPath }, .ok ()))

/-- `get_andorid_folder_ownership_securirty_context` (lines 259-268, name kept
from the source): privileged `ls -ldZ` of the app's databases directory,
returning the stripped standard output. -/
def get_andorid_folder_ownership_securirty_context (w : World) (adbPath pkg : String)
    (st : St) : St × Except PyFail String :=
  bindE (run_subprocess w st
      [adbPath, "shell", "su", "-c", s!"ls -ldZ \x27/data/data/{pkg}/databases/\x27"])
    (fun st r => (st, .ok (pyStrip r)))

/-- Python `str.split()` with no separator: split on whitespace runs, no empties. -/
def pySplitWs (s : String) : List String :=
  (wordsAux [] s.data).map String.mk

/-- `SendFile.push_files_to_android` (lines 151-221).  `pkg` is
`self.package_name`, known to be a string on this path. -/
def push_files_to_android (w : World) (env : Env) (cfg : SendFileCfg) (pkg : String)
    (adbPath : String) (st : St) : St × Except PyFail Unit :=
  let deviceBookFolder := s!"/sdcard/Android/data/{pkg}/files/"
  let acrU := replaceChar cfg.acr '!' '_'
  bindE (run_subprocess w st
      [adbPath, "push", cfg.bookPath, deviceBookFolder ++ "/" ++ strName cfg.bookPath])
    (fun st _ =>
  bindE
    (if st.fs.pathExists cfg.xRayPath then
      bindE (run_subprocess w st
          [adbPath, "push", pathStr cfg.xRayPath,
           deviceBookFolder ++ "/" ++ s!"{cfg.asin}/XRAY.{cfg.asin}.{cfg.acr}.db"])
        (fun st _ => ({ st with fs := st.fs.unlink cfg.xRayPath }, .ok ()))
    else (st, .ok ()))
    (fun st _ =>
  if st.fs.pathExists cfg.llPath then
    bindE (run_subprocess w st [adbPath, "root"]) (fun st _ =>
    bindE (run_subprocess w st
        [adbPath, "push", pathStr cfg.llPath,
         s!"/sdcard/WordWise.en.{cfg.asin}.{acrU}.db"])
      (fun st _ =>
    bindE (run_subprocess w st
        [adbPath, "shell", "su", "-c",
         s!"cp /sdcard/WordWise.en.{cfg.asin}.{acrU}.db /data/data/{pkg}/databases/WordWise.en.{cfg.asin}.{acrU}.db"])
      (fun st _ =>
    bindE (get_andorid_folder_ownership_securirty_context w adbPath pkg st)
      (fun st result =>
      let fields := pySplitWs result
      if 4 < fields.length then
        let securityContext := fields.getD 4 ""
        let owerInfo := fields.getD 2 ""
        bindE (run_subprocess w st
            [adbPath, "shell", "su", "-c",
             s!"chown {owerInfo}:{owerInfo} /data/data/{pkg}/databases/WordWise.en.{cfg.asin}.{acrU}.db"])
          (fun st _ =>
        bindE (run_subprocess w st
            [adbPath, "shell", "su", "-c",
             s!"chcon {securityContext} /data/data/{pkg}/databases/WordWise.en.{cfg.asin}.{acrU}.db"])
          (fun st _ =>
          let st := { st with fs := st.fs.unlink cfg.llPath }
          copy_klld_to_device w env st.miLanguage
            ["", "data", "data", pkg, "databases", "wordwise", "WordWise.kll.en.zh.db"]
            (some adbPath) st))
      else (st, .error .indexError)))))
  else (st, .ok ())))

/-- Return type of `device_connected`: a package-name string or a boolean. -/
inductive DCResult
  | pkg (s : String)
  | bool (b : Bool)
deriving Repr, DecidableEq

/-- `adb_connected` (lines 241-243): true when the stripped stdout of
`adb devices` ends in the token `device`. -/
def adb_connected (w : World) (adbPath : String) (st : St) : St × Except PyFail Bool :=
  bindE (run_subprocess w st [adbPath, "devices"])
    (fun st r => (st, .ok (strEndsWith (pyStrip r) "device")))

/-- `get_package_name` (lines 250-257): query the package manager for the
Kindle app (the China-region build `com.amazon.kindlefc` also matches the
substring filter) and return the text after the first colon, if any. -/
def get_package_name (w : World) (adbPath : String) (st : St) :
    St × Except PyFail (Option String) :=
  bindE (run_subprocess w st [adbPath, "shell", "pm", "list", "packages", "com.amazon.kindle"])
    (fun st r =>
      let result := pyStrip r
      let parts := (splitChars ':' result.data).map String.mk
      if 1 < parts.length then (st, .ok (some (parts.getD 1 "")))
      else (st, .ok none))

/-- Tail of `device_connected` (lines 233-238): reached when no mounted-device
branch returned; probes adb when the format is KFX. -/
def device_connected_tail (w : World) (bookFmt : String) (st : St) :
    St × Except PyFail DCResult :=
  if bookFmt = "KFX" then
    match w.whichAdb with
    | some adbPath =>
      bindE (adb_connected w adbPath st) (fun st conn =>
        if conn then
          bindE (get_package_name w adbPath st) (fun st pkg =>
            match pkg with
            | some p => (st, .ok (.pkg p))
            | none => (st, .ok (.bool false)))
        else (st, .ok (.bool false)))
    | none => (st, .ok (.bool false))
  else (st, .ok (.bool false))

/-- `device_connected` (lines 223-238).  A present Kindle-branded device is a
mounted target for non-EPUB formats; EPUB to a Kindle shows the conversion
dialog and falls through; a present non-Kindle device accepts EPUB directly. -/
def device_connected (w : World) (bookFmt : String) (st : St) :
    St × Except PyFail DCResult :=
  if w.isDevicePresent then
    let isKindle := w.vendorName = some "KINDLE"
    if bookFmt = "EPUB" then
      if isKindle then device_connected_tail w bookFmt { st with out := st.out ++ [.epubDialog] }
      else (st, .ok (.bool true))
    else if isKindle then (st, .ok (.bool true))
    else device_connected_tail w bookFmt st
  else device_connected_tail w bookFmt st

/-- Modelled from the spec: `get_asin_etc` lives in the metadata module, which
is not part of this snapshot.  Per the spec (section 4.2) it recomputes book
identification metadata inside the on-device book file, reports whether the
ASIN had to be updated, and, when the target book "exists and its language is
not English and a language-lookup database exists locally" (`set_en_lang`),
forces "the uploaded metadata's language to English before upload completion". -/
def get_asin_etc (w : World) (setEnLang : Bool) (st : St) : St × Bool :=
  let st := if setEnLang then { st with deviceBookLanguage := some "eng" } else st
  (st, w.asinNeedsUpdate)

/-- Status of the `job` argument handed to `send_files`: `none` on the direct
call, otherwise the completed upload job, failed or successful. -/
inductive Job
  | noJob
  | failed
  | succeeded
deriving Repr, DecidableEq

/-- `SendFile.send_files` (lines 52-124).  The android branch catches only
`subprocess.CalledProcessError` and shows the error dialog built from the
captured standard-error plus the traceback; the mounted branch orchestrates
upload-job handling, metadata fixing and companion-file placement. -/
def send_files (w : World) (env : Env) (cfg : SendFileCfg) (job : Job) (st : St) :
    St × Except PyFail Unit :=
  match cfg.packageName with
  | .inl pkg =>
    match w.whichAdb with
    | none => (st, .ok ())
    | some adbPath =>
      match push_files_to_android w env cfg pkg adbPath st with
      | (st, .ok _) => ({ st with out := st.out ++ [.statusMessage] }, .ok ())
      | (st, .error (.calledProcessError _cmd stderrText)) =>
        ({ st with out := st.out ++
            [.errorDialog "adb failed" stderrText (w.tracebackText ++ stderrText)] }, .ok ())
      | (st, .error e) => (st, .error e)
  | .inr _ =>
    if job = Job.failed then
      ({ st with out := st.out ++ [Outcome.jobException] }, Except.ok ())
    else
      let st :=
        if job = Job.succeeded then { st with out := st.out ++ [Outcome.booksUploaded] } else st
      if job = Job.succeeded ∧ cfg.bookFmt = "EPUB" then
        let st := { st with out := st.out ++ [Outcome.statusMessage] }
        ({ st with fs := st.fs.unlink (strToPath cfg.bookPath) }, Except.ok ())
      else
        let setEnLang : Bool :=
          st.fs.pathExists cfg.llPath && (cfg.bookFmt ≠ "EPUB") && (st.miLanguage ≠ "eng")
        if w.hasBook ∧ cfg.bookFmt ≠ "EPUB" then
          let deviceMountPoint := w.mountRoot
          let deviceBookPath := deviceMountPoint ++ w.devicePaths.getLastD []
          let st :=
            if job = Job.noJob then
              let (st, updateAsin) := get_asin_etc w setEnLang st
              if updateAsin then
                { st with out := st.out ++ [Outcome.updateThumbnail, Outcome.uploadKindleThumbnail] }
              else st
            else st
          bindE (move_files_to_kindle w env cfg deviceMountPoint deviceBookPath st)
            (fun st _ =>
              let st :=
                if strEndsWith (pathStem (strName cfg.bookPath)) "_en" then
                  { st with fs := st.fs.unlink (strToPath cfg.bookPath) }
                else st
              ({ st with out := st.out ++ [Outcome.statusMessage] }, Except.ok ()))
        else if job = Job.noJob ∨ cfg.bookFmt = "EPUB" then
          let st := { st with out := st.out ++ [Outcome.updateThumbnail] }
          let st :=
            if setEnLang ∧ cfg.bookFmt = "KFX" then { st with miLanguage := "eng" } else st
          ({ st with out := st.out ++ [Outcome.uploadBooks cfg.bookPath] }, Except.ok ())
        else (st, Except.ok ())

theorem FS.read_copyFile_dst (fs : FS) (src dst : Path) (h : fs.isFile src = true) :
    (fs.copyFile src dst).read dst = fs.read src := by
  unfold FS.copyFile
  cases hr : fs.read src with
  | none => simp [FS.isFile, hr] at h
  | some c => simp

theorem unlinkIf_read_ne (fs1 : FS) (dst q : Path) (h : q ≠ dst) :
    (if fs1.isFile dst then fs1.unlink dst else fs1).read q = fs1.read q := by
  split
  · exact fs1.read_unlink_ne dst q h
  · rfl

theorem unlinkIf_dirs (fs1 : FS) (dst : Path) :
    (if fs1.isFile dst then fs1.unlink dst else fs1).dirs = fs1.dirs := by
  split <;> rfl

theorem mkdirIf_read (fs : FS) (p q : Path) :
    (if ¬ fs.isDir p then fs.mkdir p else fs).read q = fs.read q := by
  split <;> rfl

theorem mkdirIf_isDir_self (fs : FS) (p : Path) :
    (if ¬ fs.isDir p then fs.mkdir p else fs).isDir p = true := by
  by_cases hd : fs.isDir p = true
  · rw [if_neg (by simp [hd])]
    exact hd
  · rw [if_pos (by simp [hd])]
    simp

theorem mkdirIf_isDir_mono (fs : FS) (p d : Path)
    (h : (if ¬ fs.isDir p then fs.mkdir p else fs).isDir d = true) :
    d = p ∨ fs.isDir d = true := by
  by_cases hd : fs.isDir p = true
  · rw [if_neg (by simp [hd])] at h
    exact Or.inr h
  · rw [if_pos (by simp [hd])] at h
    simp only [FS.isDir, FS.mkdir, List.contains_cons] at h
    rcases Bool.or_eq_true_iff.mp h with h1 | h2
    · exact Or.inl (by simpa using h1)
    · exact Or.inr h2

theorem move_read_facts (fs2 : FS) (f dst : Path) (hneq : f ≠ dst)
    (hfile : fs2.isFile f = true) :
    (fs2.move f dst).read dst = fs2.read f ∧ (fs2.move f dst).read f = none ∧
      ∀ q, q ≠ dst → q ≠ f → (fs2.move f dst).read q = fs2.read q := by
  refine ⟨fs2.read_move_dst f dst hfile hneq, ?_, fun q h1 h2 => fs2.read_move_other f dst q h2 h1⟩
  rcases fs2.read_move_src f dst hneq with h | h
  · exact h
  · simp [FS.isFile, h] at hfile

theorem dropLast_append_singleton (l : Path) (a : String) : (l ++ [a]).dropLast = l := by
  simp

theorem FS.isDir_move (fs : FS) (src dst q : Path) :
    (fs.move src dst).isDir q = fs.isDir q := by
  simp [FS.isDir]

theorem unlinkIf_isDir (fs1 : FS) (dst q : Path) :
    (if fs1.isFile dst then fs1.unlink dst else fs1).isDir q = fs1.isDir q := by
  split <;> simp [FS.isDir]

/-- Behaviour of `move_file_to_kindle` on an absent source: a silent no-op. -/
theorem move_file_to_kindle_absent (fs : FS) (f dbp : Path) (h : fs.isFile f = false) :
    move_file_to_kindle fs f dbp = fs := by
  unfold move_file_to_kindle
  rw [if_pos (by simp [h])]

/-- Behaviour of `move_file_to_kindle` on a present source file located outside
the sidecar directory: the file lands at its name inside the sidecar directory
(overwriting), the source entry disappears, no other file changes, and the
sidecar directory exists afterwards and is the only possible new directory. -/
theorem move_file_to_kindle_facts (fs : FS) (f dbp : Path) (hf : fs.isFile f = true)
    (hout : f.dropLast ≠ sidecarOf dbp) :
    (move_file_to_kindle fs f dbp).read (sidecarOf dbp ++ [pathName f]) = fs.read f ∧
    (move_file_to_kindle fs f dbp).isFile f = false ∧
    (∀ q, q ≠ sidecarOf dbp ++ [pathName f] → q ≠ f →
      (move_file_to_kindle fs f dbp).read q = fs.read q) ∧
    (move_file_to_kindle fs f dbp).isDir (sidecarOf dbp) = true ∧
    (∀ d, (move_file_to_kindle fs f dbp).isDir d = true → d = sidecarOf dbp ∨ fs.isDir d = true) := by
  have hfd : f ≠ sidecarOf dbp ++ [pathName f] := by
    intro heq
    exact hout (by rw [heq, dropLast_append_singleton])
  have hres : move_file_to_kindle fs f dbp =
      (if (if ¬ fs.isDir (sidecarOf dbp) then fs.mkdir (sidecarOf dbp) else fs).isFile
            (sidecarOf dbp ++ [pathName f]) then
          (if ¬ fs.isDir (sidecarOf dbp) then fs.mkdir (sidecarOf dbp) else fs).unlink
            (sidecarOf dbp ++ [pathName f])
        else (if ¬ fs.isDir (sidecarOf dbp) then fs.mkdir (sidecarOf dbp) else fs)).move f
        (sidecarOf dbp ++ [pathName f]) := by
    unfold move_file_to_kindle
    rw [if_neg (by simp [hf])]
  set fs1 := if ¬ fs.isDir (sidecarOf dbp) then fs.mkdir (sidecarOf dbp) else fs with hfs1
  set dst := sidecarOf dbp ++ [pathName f] with hdst
  set fs2 := if fs1.isFile dst then fs1.unlink dst else fs1 with hfs2
  have hfs2read : ∀ q, q ≠ dst → fs2.read q = fs.read q := by
    intro q hq
    rw [hfs2, unlinkIf_read_ne fs1 dst q hq, hfs1, mkdirIf_read]
  have hfs2file : fs2.isFile f = true := by
    rw [FS.isFile, hfs2read f hfd, ← FS.isFile]
    exact hf
  have hfs2dirs : fs2.dirs = fs1.dirs := by rw [hfs2]; exact unlinkIf_dirs fs1 dst
  obtain ⟨hA, hB, hC⟩ := move_read_facts fs2 f dst hfd hfs2file
  refine ⟨?_, ?_, ?_, ?_, ?_⟩
  · rw [hres, hA]
    exact hfs2read f hfd
  · rw [hres, FS.isFile, hB]
    rfl
  · intro q h1 h2
    rw [hres, hC q h1 h2]
    exact hfs2read q h1
  · rw [hres, FS.isDir_move, hfs2, unlinkIf_isDir, hfs1]
    exact mkdirIf_isDir_self fs (sidecarOf dbp)
  · intro d hd
    rw [hres, FS.isDir_move, hfs2, unlinkIf_isDir, hfs1] at hd
    exact mkdirIf_isDir_mono fs (sidecarOf dbp) d hd

/-- Mounted-mode dictionary provisioning, assuming the book language resolves
in the table and the resolved local dictionary file exists: it succeeds and
can only touch the device dictionary path. -/
theorem copy_klld_mounted_cases (w : World) (env : Env) (bookLang lem : String)
    (dev : Path) (st : St)
    (h : lookupLemmaLang env.supportedLanguages bookLang = some lem)
    (hloc : st.fs.isFile
      (get_wiktionary_klld_path env.pluginPath lem env.prefs.kindleGlossLang) = true) :
    ∃ fs2, copy_klld_to_device w env bookLang dev none st = ({ st with fs := fs2 }, Except.ok ()) ∧
      (∀ q, q ≠ dev → fs2.read q = st.fs.read q) ∧ fs2.dirs = st.fs.dirs := by
  unfold copy_klld_to_device
  rw [h]
  by_cases hk : use_kindle_ww_db lem env.prefs
  · exact ⟨st.fs, by simp [hk], fun q hq => rfl, rfl⟩
  · by_cases hex : st.fs.pathExists dev = true
    · by_cases hsame :
          is_same_klld st.fs
            (get_wiktionary_klld_path env.pluginPath lem env.prefs.kindleGlossLang) dev = true
      · exact ⟨st.fs, by simp [hk, hex, hsame], fun q hq => rfl, rfl⟩
      · exact ⟨st.fs.copyFile
            (get_wiktionary_klld_path env.pluginPath lem env.prefs.kindleGlossLang) dev,
          by simp [hk, hex, hsame, hloc], fun q hq => FS.read_copyFile_ne _ _ _ _ hq, by simp⟩
    · exact ⟨st.fs.copyFile
            (get_wiktionary_klld_path env.pluginPath lem env.prefs.kindleGlossLang) dev,
          by simp [hk, hex, hloc], fun q hq => FS.read_copyFile_ne _ _ _ _ hq, by simp⟩

/-- Concrete world fixture used by witnesses: every subprocess succeeds, and
stdout of every command is a plausible `ls -ldZ` line of the databases folder. -/
def wBase : World where
  cmdFails := fun _ => false
  cmdStderr := fun _ => ""
  cmdStdout := fun _ => "drwxrwx--x 4 u0_a123 u0_a123 u:object_r:app_data_file:s0 4096 databases"
  whichAdb := some "adb"
  isDevicePresent := false
  vendorName := none
  hasBook := true
  devicePaths := [["documents", "Book.azw3"]]
  mountRoot := ["", "Volumes", "Kindle"]
  asinNeedsUpdate := false
  tracebackText := "Traceback (most recent call last)"

/-- Concrete plugin environment fixture: English and Chinese in the language
table, no language configured to use the built-in Kindle dictionary. -/
def envBase : Env where
  supportedLanguages := [("en", "eng"), ("zh", "zho")]
  prefs := { useKindleWwDbLangs := [], kindleGlossLang := "zh" }
  pluginPath := ["", "plugin"]

/-- Local Word Wise lookup database fixture path. -/
def llBase : Path := ["", "lib", "LanguageLayer.en.B01X.kll"]

/-- Local X-Ray database fixture path. -/
def xrBase : Path := ["", "lib", "XRAY.entities.B01X.asc"]

/-- Local Wiktionary dictionary fixture path, matching
`get_wiktionary_klld_path envBase.pluginPath "zh" "zh"`. -/
def klldBase : Path := ["", "plugin", "data", "wordwise", "kll.zh.zh.klld"]

/-- Concrete starting state fixture: lookup DB, X-Ray DB and the local
dictionary exist; the book metadata language is Chinese. -/
def stBase : St where
  fs := { files := [(llBase, [1, 2]), (xrBase, [3]), (klldBase, [7, 8])], dirs := [] }
  trace := []
  out := []
  miLanguage := "zho"
  deviceBookLanguage := none

/-- Concrete `SendFile` fixture for the adb scenario of the spec. -/
def cfgBase : SendFileCfg where
  asin := "B01X"
  bookPath := "/lib/Book.kfx"
  bookFmt := "KFX"
  acr := "!abc"
  llPath := llBase
  xRayPath := xrBase
  packageName := Sum.inl "com.amazon.kindle"

/-- C1 (amended): for every book language code with no matching `639-2` entry
in the plugin's language table, `copy_klld_to_device` raises `UnboundLocalError`
(reading the never-assigned `lemma_lang`) instead of silently returning; it
copies and pushes nothing — the state comes back untouched — on both the
mounted (`adb_path is None`) and adb transports. -/
theorem copy_klld_no_match_raises (w : World) (env : Env) (bookLang : String)
    (deviceKlldPath : Path) (adbPath : Option String) (st : St)
    (h : lookupLemmaLang env.supportedLanguages bookLang = none) :
    copy_klld_to_device w env bookLang deviceKlldPath adbPath st =
      (st, Except.error PyFail.unboundLocalError) := by
  unfold copy_klld_to_device
  rw [h]

/-- Witness for `copy_klld_no_match_raises` at the concrete language `"xyz"`,
absent from the fixture table. -/
theorem copy_klld_no_match_raises_witness :
    lookupLemmaLang envBase.supportedLanguages "xyz" = none ∧
      copy_klld_to_device wBase envBase "xyz" ["", "dev", "kll.en.zh.klld"] none stBase =
        (stBase, Except.error PyFail.unboundLocalError) :=
  ⟨by decide,
    copy_klld_no_match_raises wBase envBase "xyz" ["", "dev", "kll.en.zh.klld"] none stBase
      (by decide)⟩

/-- C1 counterexample to the claim as stated: with a table holding English and
Chinese, provisioning for book language `"xyz"` raises `UnboundLocalError` on
both the mounted and the adb transport rather than returning silently. -/
theorem copy_klld_no_match_counterexample :
    (copy_klld_to_device wBase envBase "xyz" ["", "dev", "kll.en.zh.klld"] none stBase).2 =
        Except.error PyFail.unboundLocalError ∧
      (copy_klld_to_device wBase envBase "xyz" ["", "dev", "kll.en.zh.klld"] (some "adb")
          stBase).2 =
        Except.error PyFail.unboundLocalError :=
  ⟨rfl, rfl⟩

/-- Mounted provisioning on a state whose device dictionary already exists and
matches the local one byte-for-byte: a silent no-op. -/
theorem copy_klld_mounted_noop (w : World) (env : Env) (bookLang lem : String)
    (dev : Path) (st : St)
    (hres : lookupLemmaLang env.supportedLanguages bookLang = some lem)
    (hkdb : use_kindle_ww_db lem env.prefs = false)
    (hex : st.fs.pathExists dev = true)
    (hsame : is_same_klld st.fs
      (get_wiktionary_klld_path env.pluginPath lem env.prefs.kindleGlossLang) dev = true) :
    copy_klld_to_device w env bookLang dev none st = (st, Except.ok ()) := by
  simp [copy_klld_to_device, hres, hkdb, hex, hsame]

/-- Local dictionary path for a resolved language, as computed inside
`copy_klld_to_device` (abbreviation for statements). -/
def localKlldOf (env : Env) (lem : String) : Path :=
  get_wiktionary_klld_path env.pluginPath lem env.prefs.kindleGlossLang

/-- Mounted provisioning copies whenever the destination is absent or its
content differs from the local dictionary. -/
theorem copy_klld_mounted_copies (w : World) (env : Env) (bookLang lem : String)
    (dev : Path) (st : St)
    (hres : lookupLemmaLang env.supportedLanguages bookLang = some lem)
    (hkdb : use_kindle_ww_db lem env.prefs = false)
    (hloc : st.fs.isFile (localKlldOf env lem) = true)
    (hcond : st.fs.pathExists dev = false ∨ is_same_klld st.fs (localKlldOf env lem) dev = false) :
    copy_klld_to_device w env bookLang dev none st =
      ({ st with fs := st.fs.copyFile (localKlldOf env lem) dev }, Except.ok ()) := by
  simp only [localKlldOf] at hloc
  rcases hcond with h | h
  · simp [copy_klld_to_device, hres, hkdb, localKlldOf] at h ⊢
    simp [h, hloc]
  · simp [copy_klld_to_device, hres, hkdb, localKlldOf] at h ⊢
    simp [h, hloc]

/-- After a mounted copy the destination exists and matches the local file. -/
theorem copyFile_then_exists_same (fs : FS) (lp dev : Path) (hlocal : fs.isFile lp = true)
    (hne : lp ≠ dev) :
    (fs.copyFile lp dev).pathExists dev = true ∧
      is_same_klld (fs.copyFile lp dev) lp dev = true := by
  have hdst := fs.read_copyFile_dst lp dev hlocal
  have hlp := fs.read_copyFile_ne lp dev lp hne
  constructor
  · unfold FS.pathExists FS.isFile
    unfold FS.isFile at hlocal
    rw [hdst, hlocal]
    rfl
  · simp [is_same_klld, hdst, hlp]

/-- C6: mounted-transport dictionary provisioning is idempotent.  Assuming the
book language resolves, the resolved language is not configured to use the
built-in Kindle dictionary, and the local dictionary file exists, the first
invocation copies exactly when the destination is absent or differs
byte-for-byte from the local file, and a second invocation starting from the
resulting state changes nothing at all. -/
theorem copy_klld_mounted_idempotent (w : World) (env : Env) (bookLang lem : String)
    (dev : Path) (st : St)
    (hres : lookupLemmaLang env.supportedLanguages bookLang = some lem)
    (hkdb : use_kindle_ww_db lem env.prefs = false)
    (hlocal : st.fs.isFile (localKlldOf env lem) = true)
    (hne : localKlldOf env lem ≠ dev) :
    ∃ fs1,
      copy_klld_to_device w env bookLang dev none st = ({ st with fs := fs1 }, Except.ok ()) ∧
      ((st.fs.pathExists dev = false ∨ is_same_klld st.fs (localKlldOf env lem) dev = false) →
        fs1 = st.fs.copyFile (localKlldOf env lem) dev) ∧
      ((st.fs.pathExists dev = true ∧ is_same_klld st.fs (localKlldOf env lem) dev = true) →
        fs1 = st.fs) ∧
      copy_klld_to_device w env bookLang dev none { st with fs := fs1 } =
        ({ st with fs := fs1 }, Except.ok ()) := by
  have hsameKlld : ∀ fsx : FS, is_same_klld fsx (localKlldOf env lem) dev =
      is_same_klld fsx (get_wiktionary_klld_path env.pluginPath lem env.prefs.kindleGlossLang)
        dev := fun _ => rfl
  by_cases hex : st.fs.pathExists dev = true
  · by_cases hsame : is_same_klld st.fs (localKlldOf env lem) dev = true
    · refine ⟨st.fs, ?_, ?_, fun _ => rfl, ?_⟩
      · exact copy_klld_mounted_noop w env bookLang lem dev st hres hkdb hex
          ((hsameKlld st.fs) ▸ hsame)
      · intro hcond
        rcases hcond with h | h
        · rw [hex] at h
          cases h
        · rw [hsame] at h
          cases h
      · exact copy_klld_mounted_noop w env bookLang lem dev st hres hkdb hex
          ((hsameKlld st.fs) ▸ hsame)
    · have hsame' : is_same_klld st.fs (localKlldOf env lem) dev = false :=
        Bool.eq_false_iff.mpr hsame
      refine ⟨st.fs.copyFile (localKlldOf env lem) dev,
        copy_klld_mounted_copies w env bookLang lem dev st hres hkdb hlocal (Or.inr hsame'),
        fun _ => rfl, ?_, ?_⟩
      · intro hcond
        rw [hcond.2] at hsame'
        cases hsame'
      · obtain ⟨he2, hs2⟩ :=
          copyFile_then_exists_same st.fs (localKlldOf env lem) dev hlocal hne
        exact copy_klld_mounted_noop w env bookLang lem dev _ hres hkdb he2
          ((hsameKlld _) ▸ hs2)
  · have hex' : st.fs.pathExists dev = false := Bool.eq_false_iff.mpr hex
    refine ⟨st.fs.copyFile (localKlldOf env lem) dev,
      copy_klld_mounted_copies w env bookLang lem dev st hres hkdb hlocal (Or.inl hex'),
      fun _ => rfl, ?_, ?_⟩
    · intro hcond
      rw [hcond.1] at hex'
      cases hex'
    · obtain ⟨he2, hs2⟩ :=
        copyFile_then_exists_same st.fs (localKlldOf env lem) dev hlocal hne
      exact copy_klld_mounted_noop w env bookLang lem dev _ hres hkdb he2
        ((hsameKlld _) ▸ hs2)

/-- Device dictionary destination fixture on the mounted Kindle volume. -/
def kllDevBase : Path := ["", "Volumes", "Kindle", "system", "kll", "kll.en.zh.klld"]

/-- Witness for `copy_klld_mounted_idempotent` at the Chinese-language fixture. -/
theorem copy_klld_mounted_idempotent_witness :
    ∃ fs1,
      copy_klld_to_device wBase envBase "zho" kllDevBase none stBase =
        ({ stBase with fs := fs1 }, Except.ok ()) ∧
      ((stBase.fs.pathExists kllDevBase = false ∨
          is_same_klld stBase.fs (localKlldOf envBase "zh") kllDevBase = false) →
        fs1 = stBase.fs.copyFile (localKlldOf envBase "zh") kllDevBase) ∧
      ((stBase.fs.pathExists kllDevBase = true ∧
          is_same_klld stBase.fs (localKlldOf envBase "zh") kllDevBase = true) →
        fs1 = stBase.fs) ∧
      copy_klld_to_device wBase envBase "zho" kllDevBase none { stBase with fs := fs1 } =
        ({ stBase with fs := fs1 }, Except.ok ()) :=
  copy_klld_mounted_idempotent wBase envBase "zho" "zh" kllDevBase stBase (by decide) (by decide)
    (by decide) (by decide)

theorem ne_of_dropLast_out (p sc : Path) (n : String) (h : p.dropLast ≠ sc) : p ≠ sc ++ [n] := by
  intro he
  exact h (by rw [he, dropLast_append_singleton])

theorem sidecar_entry_ne (sc : Path) (a b : String) (h : a ≠ b) : sc ++ [a] ≠ sc ++ [b] := by
  intro he
  exact h (by simpa using List.append_cancel_left he)

theorem assocFind_fresh (l : List (Path × Content)) (sc : Path) (n : String)
    (h : ∀ e ∈ l, e.1.dropLast ≠ sc) : assocFind l (sc ++ [n]) = none := by
  induction l with
  | nil => rfl
  | cons e l ih =>
    have he : e.1 ≠ sc ++ [n] := ne_of_dropLast_out e.1 sc n (h e (by simp))
    rw [assocFind, if_neg he]
    exact ih (fun e' he' => h e' (by simp [he']))

theorem FS.read_fresh (fs : FS) (sc : Path) (n : String)
    (h : ∀ e ∈ fs.files, e.1.dropLast ≠ sc) : fs.read (sc ++ [n]) = none :=
  assocFind_fresh fs.files sc n h

theorem FS.isFile_congr {fs fs' : FS} {q : Path} (h : fs'.read q = fs.read q) :
    fs'.isFile q = fs.isFile q := by
  unfold FS.isFile
  rw [h]

theorem FS.pathExists_of_isFile {fs : FS} {p : Path} (h : fs.isFile p = true) :
    fs.pathExists p = true := by
  unfold FS.pathExists
  rw [h]
  rfl

theorem FS.pathExists_eq_false {fs : FS} {p : Path} (h1 : fs.isFile p = false)
    (h2 : fs.isDir p = false) : fs.pathExists p = false := by
  unfold FS.pathExists
  rw [h1, h2]
  rfl

/-- C4: on the mounted transport, `move_files_to_kindle` moves exactly the
present companion files into the sidecar directory derived from the device
book path, creating it on demand and overwriting same-named files; with both
companions absent it changes nothing (in particular no sidecar directory is
created).  Hypotheses: the book language resolves in the table, the resolved
local dictionary file exists (otherwise provisioning raises
`FileNotFoundError` from `shutil.copy` before any move), companion paths are
ordinary distinct files outside the sidecar directory, and the device
dictionary path does not collide with them. -/
theorem move_files_to_kindle_exact (w : World) (env : Env) (cfg : SendFileCfg)
    (mount dbp : Path) (st : St) (lem : String)
    (hresolve : lookupLemmaLang env.supportedLanguages st.miLanguage = some lem)
    (hloc : st.fs.isFile
      (get_wiktionary_klld_path env.pluginPath lem env.prefs.kindleGlossLang) = true)
    (hllnd : st.fs.isDir cfg.llPath = false)
    (hllxr : cfg.llPath ≠ cfg.xRayPath)
    (hname : pathName cfg.llPath ≠ pathName cfg.xRayPath)
    (hllout : cfg.llPath.dropLast ≠ sidecarOf dbp)
    (hxrout : cfg.xRayPath.dropLast ≠ sidecarOf dbp)
    (hkll : mount ++ ["system", "kll", "kll.en.zh.klld"] ≠ cfg.llPath)
    (hkxr : mount ++ ["system", "kll", "kll.en.zh.klld"] ≠ cfg.xRayPath)
    (hkout : (mount ++ ["system", "kll", "kll.en.zh.klld"]).dropLast ≠ sidecarOf dbp) :
    ∃ fs2,
      move_files_to_kindle w env cfg mount dbp st = ({ st with fs := fs2 }, Except.ok ()) ∧
      (st.fs.isFile cfg.llPath = true →
        fs2.read (sidecarOf dbp ++ [pathName cfg.llPath]) = st.fs.read cfg.llPath ∧
        fs2.isFile cfg.llPath = false) ∧
      (st.fs.isFile cfg.xRayPath = true →
        fs2.read (sidecarOf dbp ++ [pathName cfg.xRayPath]) = st.fs.read cfg.xRayPath ∧
        fs2.isFile cfg.xRayPath = false) ∧
      ((st.fs.isFile cfg.llPath = true ∨ st.fs.isFile cfg.xRayPath = true) →
        fs2.isDir (sidecarOf dbp) = true) ∧
      (st.fs.isFile cfg.llPath = false → st.fs.isFile cfg.xRayPath = false → fs2 = st.fs) ∧
      ((∀ e ∈ st.fs.files, e.1.dropLast ≠ sidecarOf dbp) → ∀ n : String,
        fs2.isFile (sidecarOf dbp ++ [n]) = true →
          (st.fs.isFile cfg.llPath = true ∧ n = pathName cfg.llPath) ∨
          (st.fs.isFile cfg.xRayPath = true ∧ n = pathName cfg.xRayPath)) := by
  by_cases hll : st.fs.isFile cfg.llPath = true
  · obtain ⟨fs1, eq1, rd1, dir1⟩ := copy_klld_mounted_cases w env st.miLanguage lem
      (mount ++ ["system", "kll", "kll.en.zh.klld"]) st hresolve hloc
    have hpe : st.fs.pathExists cfg.llPath = true := FS.pathExists_of_isFile hll
    have hfs1ll : fs1.read cfg.llPath = st.fs.read cfg.llPath := rd1 _ (Ne.symm hkll)
    have hfs1llf : fs1.isFile cfg.llPath = true := (FS.isFile_congr hfs1ll).trans hll
    obtain ⟨A1, B1, C1, D1, E1⟩ := move_file_to_kindle_facts fs1 cfg.llPath dbp hfs1llf hllout
    have heq : move_files_to_kindle w env cfg mount dbp st =
        ({ st with fs := move_file_to_kindle (move_file_to_kindle fs1 cfg.llPath dbp) cfg.xRayPath dbp }, Except.ok ()) := by
      unfold move_files_to_kindle
      rw [if_pos hpe, eq1]
      rfl
    have hm1xr : (move_file_to_kindle fs1 cfg.llPath dbp).read cfg.xRayPath =
        st.fs.read cfg.xRayPath := by
      rw [C1 _ (ne_of_dropLast_out _ _ _ hxrout) (Ne.symm hllxr)]
      exact rd1 _ (Ne.symm hkxr)
    have hm1ll : (move_file_to_kindle fs1 cfg.llPath dbp).read cfg.llPath = none := by
      have := B1
      unfold FS.isFile at this
      cases hr : (move_file_to_kindle fs1 cfg.llPath dbp).read cfg.llPath with
      | none => rfl
      | some c => rw [hr] at this; cases this
    by_cases hxr : st.fs.isFile cfg.xRayPath = true
    · have hm1xrf : (move_file_to_kindle fs1 cfg.llPath dbp).isFile cfg.xRayPath = true :=
        (FS.isFile_congr hm1xr).trans hxr
      obtain ⟨A2, B2, C2, D2, E2⟩ :=
        move_file_to_kindle_facts (move_file_to_kindle fs1 cfg.llPath dbp)
          cfg.xRayPath dbp hm1xrf hxrout
      refine ⟨_, heq, ?_, ?_, ?_, ?_, ?_⟩
      · intro _
        constructor
        · rw [C2 _ (sidecar_entry_ne _ _ _ hname)
            (Ne.symm (ne_of_dropLast_out _ _ _ hxrout)), A1, hfs1ll]
        · have hr : (move_file_to_kindle (move_file_to_kindle fs1 cfg.llPath dbp)
              cfg.xRayPath dbp).read cfg.llPath =
              (move_file_to_kindle fs1 cfg.llPath dbp).read cfg.llPath :=
            C2 _ (ne_of_dropLast_out _ _ _ hllout) hllxr
          unfold FS.isFile
          rw [hr, hm1ll]
          rfl
      · intro _
        refine ⟨?_, B2⟩
        rw [A2, hm1xr]
      · intro _
        exact D2
      · intro h
        rw [hll] at h
        cases h
      · intro hfresh n hn
        by_cases hnl : n = pathName cfg.llPath
        · exact Or.inl ⟨hll, hnl⟩
        · by_cases hnx : n = pathName cfg.xRayPath
          · exact Or.inr ⟨hxr, hnx⟩
          · exfalso
            have r2 : (move_file_to_kindle (move_file_to_kindle fs1 cfg.llPath dbp)
                cfg.xRayPath dbp).read (sidecarOf dbp ++ [n]) =
                (move_file_to_kindle fs1 cfg.llPath dbp).read (sidecarOf dbp ++ [n]) :=
              C2 _ (sidecar_entry_ne _ _ _ hnx)
                (Ne.symm (ne_of_dropLast_out _ _ _ hxrout))
            have r1 : (move_file_to_kindle fs1 cfg.llPath dbp).read (sidecarOf dbp ++ [n]) =
                fs1.read (sidecarOf dbp ++ [n]) :=
              C1 _ (sidecar_entry_ne _ _ _ hnl)
                (Ne.symm (ne_of_dropLast_out _ _ _ hllout))
            have r0 : fs1.read (sidecarOf dbp ++ [n]) = st.fs.read (sidecarOf dbp ++ [n]) :=
              rd1 _ (Ne.symm (ne_of_dropLast_out _ _ _ hkout))
            have rz : st.fs.read (sidecarOf dbp ++ [n]) = none := st.fs.read_fresh _ _ hfresh
            unfold FS.isFile at hn
            rw [r2, r1, r0, rz] at hn
            cases hn
    · have hxr' : st.fs.isFile cfg.xRayPath = false := Bool.eq_false_iff.mpr hxr
      have hm1xrf : (move_file_to_kindle fs1 cfg.llPath dbp).isFile cfg.xRayPath = false :=
        (FS.isFile_congr hm1xr).trans hxr'
      have habs : move_file_to_kindle (move_file_to_kindle fs1 cfg.llPath dbp)
          cfg.xRayPath dbp = move_file_to_kindle fs1 cfg.llPath dbp :=
        move_file_to_kindle_absent _ _ _ hm1xrf
      refine ⟨_, heq, ?_, ?_, ?_, ?_, ?_⟩
      · intro _
        constructor
        · rw [habs, A1, hfs1ll]
        · rw [habs]
          exact B1
      · intro h
        rw [hxr'] at h
        cases h
      · intro _
        rw [habs]
        exact D1
      · intro h
        rw [hll] at h
        cases h
      · intro hfresh n hn
        rw [habs] at hn
        by_cases hnl : n = pathName cfg.llPath
        · exact Or.inl ⟨hll, hnl⟩
        · exfalso
          have r1 : (move_file_to_kindle fs1 cfg.llPath dbp).read (sidecarOf dbp ++ [n]) =
              fs1.read (sidecarOf dbp ++ [n]) :=
            C1 _ (sidecar_entry_ne _ _ _ hnl)
              (Ne.symm (ne_of_dropLast_out _ _ _ hllout))
          have r0 : fs1.read (sidecarOf dbp ++ [n]) = st.fs.read (sidecarOf dbp ++ [n]) :=
            rd1 _ (Ne.symm (ne_of_dropLast_out _ _ _ hkout))
          have rz : st.fs.read (sidecarOf dbp ++ [n]) = none := st.fs.read_fresh _ _ hfresh
          unfold FS.isFile at hn
          rw [r1, r0, rz] at hn
          cases hn
  · have hll' : st.fs.isFile cfg.llPath = false := Bool.eq_false_iff.mpr hll
    have hpe' : st.fs.pathExists cfg.llPath = false := FS.pathExists_eq_false hll' hllnd
    have heq : move_files_to_kindle w env cfg mount dbp st =
        ({ st with fs := move_file_to_kindle st.fs cfg.xRayPath dbp }, Except.ok ()) := by
      unfold move_files_to_kindle
      rw [if_neg (by simp [hpe'])]
      rfl
    by_cases hxr : st.fs.isFile cfg.xRayPath = true
    · obtain ⟨A2, B2, C2, D2, E2⟩ := move_file_to_kindle_facts st.fs cfg.xRayPath dbp hxr hxrout
      refine ⟨_, heq, ?_, ?_, ?_, ?_, ?_⟩
      · intro h
        rw [h] at hll'
        cases hll'
      · intro _
        exact ⟨A2, B2⟩
      · intro _
        exact D2
      · intro _ h
        rw [hxr] at h
        cases h
      · intro hfresh n hn
        by_cases hnx : n = pathName cfg.xRayPath
        · exact Or.inr ⟨hxr, hnx⟩
        · exfalso
          have r1 : (move_file_to_kindle st.fs cfg.xRayPath dbp).read (sidecarOf dbp ++ [n]) =
              st.fs.read (sidecarOf dbp ++ [n]) :=
            C2 _ (sidecar_entry_ne _ _ _ hnx)
              (Ne.symm (ne_of_dropLast_out _ _ _ hxrout))
          have rz : st.fs.read (sidecarOf dbp ++ [n]) = none := st.fs.read_fresh _ _ hfresh
          unfold FS.isFile at hn
          rw [r1, rz] at hn
          cases hn
    · have hxr' : st.fs.isFile cfg.xRayPath = false := Bool.eq_false_iff.mpr hxr
      have habs : move_file_to_kindle st.fs cfg.xRayPath dbp = st.fs :=
        move_file_to_kindle_absent _ _ _ hxr'
      refine ⟨_, heq, ?_, ?_, ?_, ?_, ?_⟩
      · intro h
        rw [h] at hll'
        cases hll'
      · intro h
        rw [h] at hxr'
        cases hxr'
      · intro h
        rcases h with h | h
        · rw [h] at hll'
          cases hll'
        · rw [h] at hxr'
          cases hxr'
      · intro _ _
        exact habs
      · intro hfresh n hn
        rw [habs] at hn
        have rz : st.fs.read (sidecarOf dbp ++ [n]) = none := st.fs.read_fresh _ _ hfresh
        unfold FS.isFile at hn
        rw [rz] at hn
        cases hn

theorem bindE_assoc {α β γ} (p : St × Except PyFail α) (f : St → α → St × Except PyFail β)
    (g : St → β → St × Except PyFail γ) :
    bindE (bindE p f) g = bindE p (fun st a => bindE (f st a) g) := by
  rcases p with ⟨st, r⟩
  cases r <;> rfl

theorem run_subprocess_cases (w : World) (st : St) (cmd : Cmd) :
    (run_subprocess w st cmd =
        ({ st with trace := st.trace ++ [cmd] }, Except.ok (w.cmdStdout cmd)) ∧
      w.cmdFails cmd = false) ∨
    (run_subprocess w st cmd =
        ({ st with trace := st.trace ++ [cmd] },
          Except.error (PyFail.calledProcessError cmd (w.cmdStderr cmd))) ∧
      w.cmdFails cmd = true) := by
  unfold run_subprocess
  by_cases h : w.cmdFails cmd = true
  · right
    exact ⟨by rw [if_pos h], h⟩
  · left
    exact ⟨by rw [if_neg h], Bool.eq_false_iff.mpr h⟩

theorem bindE_run_ok {β} (w : World) (st : St) (cmd : Cmd)
    (f : St → String → St × Except PyFail β) (st' : St) (b : β)
    (hsucc : bindE (run_subprocess w st cmd) f = (st', Except.ok b)) :
    f { st with trace := st.trace ++ [cmd] } (w.cmdStdout cmd) = (st', Except.ok b) := by
  rcases run_subprocess_cases w st cmd with ⟨he, _⟩ | ⟨he, _⟩
  · rw [he] at hsucc
    exact hsucc
  · rw [he] at hsucc
    simp [bindE] at hsucc

/-- The adb branch of `copy_klld_to_device` never touches the filesystem. -/
theorem copy_klld_adb_fs (w : World) (env : Env) (bookLang : String) (dev : Path)
    (adb : String) (st : St) :
    ((copy_klld_to_device w env bookLang dev (some adb) st).1).fs = st.fs := by
  unfold copy_klld_to_device
  cases lookupLemmaLang env.supportedLanguages bookLang with
  | none => rfl
  | some lem =>
    dsimp only
    by_cases hk : use_kindle_ww_db lem env.prefs
    · rw [if_pos hk]
    · rw [if_neg hk]
      rcases run_subprocess_cases w st
          [adb, "push", pathStr (get_wiktionary_klld_path env.pluginPath lem
            env.prefs.kindleGlossLang), pathStr dev] with ⟨he, _⟩ | ⟨he, _⟩ <;>
        rw [he] <;> rfl

/-- No step of the adb transfer changes the set of directories. -/
theorem copy_klld_adb_dirs (w : World) (env : Env) (bookLang : String) (dev : Path)
    (adb : String) (st : St) :
    ((copy_klld_to_device w env bookLang dev (some adb) st).1).fs.dirs = st.fs.dirs := by
  rw [copy_klld_adb_fs]

theorem FS.isFile_false_of_read_none {fs : FS} {p : Path} (h : fs.read p = none) :
    fs.isFile p = false := by
  unfold FS.isFile
  rw [h]
  rfl

theorem FS.read_none_of_isFile_false {fs : FS} {p : Path} (h : fs.isFile p = false) :
    fs.read p = none := by
  unfold FS.isFile at h
  cases hr : fs.read p with
  | none => rfl
  | some c => rw [hr] at h; cases h

theorem FS.read_unlink_none (fs : FS) (p q : Path) (h : fs.read q = none) :
    (fs.unlink p).read q = none := by
  by_cases hq : q = p
  · rw [hq]
    simp
  · rw [FS.read_unlink_ne _ _ _ hq]
    exact h

theorem FS.isDir_unlink (fs : FS) (p q : Path) : (fs.unlink p).isDir q = fs.isDir q := rfl

theorem FS.pathExists_false_parts {fs : FS} {p : Path} (h : fs.pathExists p = false) :
    fs.isFile p = false ∧ fs.isDir p = false := by
  unfold FS.pathExists at h
  cases hf : fs.isFile p <;> cases hd : fs.isDir p <;> simp_all

theorem bindE_ok {α β} (st : St) (a : α) (f : St → α → St × Except PyFail β) :
    bindE (st, Except.ok a) f = f st a := rfl

/-- Successful adb transfer deletes the local copies: after
`push_files_to_android` returns without an exception, neither the lookup
database nor the X-Ray database exists on local disk. -/
theorem push_files_local_gone (w : World) (env : Env) (cfg : SendFileCfg) (pkg adb : String)
    (st st' : St)
    (hllnd : st.fs.isDir cfg.llPath = false) (hxrnd : st.fs.isDir cfg.xRayPath = false)
    (h : push_files_to_android w env cfg pkg adb st = (st', Except.ok ())) :
    st'.fs.pathExists cfg.llPath = false ∧ st'.fs.pathExists cfg.xRayPath = false := by
  unfold push_files_to_android at h
  replace h := bindE_run_ok w st _ _ st' () h
  try dsimp only at h
  split at h
  case isTrue hxr0 =>
    rw [bindE_assoc] at h
    replace h := bindE_run_ok w _ _ _ st' () h
    try dsimp only at h
    rw [bindE_ok] at h
    try dsimp only at h
    split at h
    case isTrue hc =>
      replace h := bindE_run_ok w _ _ _ st' () h
      try dsimp only at h
      replace h := bindE_run_ok w _ _ _ st' () h
      try dsimp only at h
      replace h := bindE_run_ok w _ _ _ st' () h
      try dsimp only at h
      unfold get_andorid_folder_ownership_securirty_context at h
      rw [bindE_assoc] at h
      replace h := bindE_run_ok w _ _ _ st' () h
      try dsimp only at h
      rw [bindE_ok] at h
      try dsimp only at h
      split at h
      case isTrue hflen =>
        replace h := bindE_run_ok w _ _ _ st' () h
        try dsimp only at h
        replace h := bindE_run_ok w _ _ _ st' () h
        try dsimp only at h
        have hcfs := congrArg (fun p : St × Except PyFail Unit => p.1.fs) h
        dsimp only at hcfs
        rw [copy_klld_adb_fs] at hcfs
        try dsimp only at hcfs
        replace hcfs := hcfs.symm
        constructor
        · apply FS.pathExists_eq_false
          · rw [hcfs]
            exact FS.isFile_false_of_read_none (FS.read_unlink_self _ _)
          · rw [hcfs, FS.isDir_unlink, FS.isDir_unlink]
            exact hllnd
        · apply FS.pathExists_eq_false
          · rw [hcfs]
            exact FS.isFile_false_of_read_none
              (FS.read_unlink_none _ _ _ (FS.read_unlink_self _ _))
          · rw [hcfs, FS.isDir_unlink, FS.isDir_unlink]
            exact hxrnd
      case isFalse hflen =>
        simp at h
    case isFalse hc =>
      injection h with h1 h2
      subst h1
      refine ⟨Bool.eq_false_iff.mpr hc, ?_⟩
      apply FS.pathExists_eq_false
      · exact FS.isFile_false_of_read_none (FS.read_unlink_self _ _)
      · rw [FS.isDir_unlink]
        exact hxrnd
  case isFalse hxr0 =>
    rw [bindE_ok] at h
    try dsimp only at h
    have hxr0' := FS.pathExists_false_parts (Bool.eq_false_iff.mpr hxr0)
    split at h
    case isTrue hc =>
      replace h := bindE_run_ok w _ _ _ st' () h
      try dsimp only at h
      replace h := bindE_run_ok w _ _ _ st' () h
      try dsimp only at h
      replace h := bindE_run_ok w _ _ _ st' () h
      try dsimp only at h
      unfold get_andorid_folder_ownership_securirty_context at h
      rw [bindE_assoc] at h
      replace h := bindE_run_ok w _ _ _ st' () h
      try dsimp only at h
      rw [bindE_ok] at h
      try dsimp only at h
      split at h
      case isTrue hflen =>
        replace h := bindE_run_ok w _ _ _ st' () h
        try dsimp only at h
        replace h := bindE_run_ok w _ _ _ st' () h
        try dsimp only at h
        have hcfs := congrArg (fun p : St × Except PyFail Unit => p.1.fs) h
        dsimp only at hcfs
        rw [copy_klld_adb_fs] at hcfs
        try dsimp only at hcfs
        replace hcfs := hcfs.symm
        constructor
        · apply FS.pathExists_eq_false
          · rw [hcfs]
            exact FS.isFile_false_of_read_none (FS.read_unlink_self _ _)
          · rw [hcfs, FS.isDir_unlink]
            exact hllnd
        · apply FS.pathExists_eq_false
          · rw [hcfs]
            exact FS.isFile_false_of_read_none
              (FS.read_unlink_none _ _ _ (FS.read_none_of_isFile_false hxr0'.1))
          · rw [hcfs, FS.isDir_unlink]
            exact hxr0'.2
      case isFalse hflen =>
        simp at h
    case isFalse hc =>
      injection h with h1 h2
      subst h1
      exact ⟨Bool.eq_false_iff.mpr hc, Bool.eq_false_iff.mpr hxr0⟩

/-- Device book path fixture on the mounted volume. -/
def dbpBase : Path := ["", "Volumes", "Kindle", "documents", "Book.azw3"]

/-- Witness for `move_files_to_kindle_exact` at the fixture scenario (both
companion files present). -/
theorem move_files_to_kindle_exact_witness :
    ∃ fs2,
      move_files_to_kindle wBase envBase cfgBase ["", "Volumes", "Kindle"] dbpBase stBase =
        ({ stBase with fs := fs2 }, Except.ok ()) ∧
      (stBase.fs.isFile cfgBase.llPath = true →
        fs2.read (sidecarOf dbpBase ++ [pathName cfgBase.llPath]) = stBase.fs.read cfgBase.llPath ∧
        fs2.isFile cfgBase.llPath = false) ∧
      (stBase.fs.isFile cfgBase.xRayPath = true →
        fs2.read (sidecarOf dbpBase ++ [pathName cfgBase.xRayPath]) =
          stBase.fs.read cfgBase.xRayPath ∧
        fs2.isFile cfgBase.xRayPath = false) ∧
      ((stBase.fs.isFile cfgBase.llPath = true ∨ stBase.fs.isFile cfgBase.xRayPath = true) →
        fs2.isDir (sidecarOf dbpBase) = true) ∧
      (stBase.fs.isFile cfgBase.llPath = false → stBase.fs.isFile cfgBase.xRayPath = false →
        fs2 = stBase.fs) ∧
      ((∀ e ∈ stBase.fs.files, e.1.dropLast ≠ sidecarOf dbpBase) → ∀ n : String,
        fs2.isFile (sidecarOf dbpBase ++ [n]) = true →
          (stBase.fs.isFile cfgBase.llPath = true ∧ n = pathName cfgBase.llPath) ∨
          (stBase.fs.isFile cfgBase.xRayPath = true ∧ n = pathName cfgBase.xRayPath)) :=
  move_files_to_kindle_exact wBase envBase cfgBase ["", "Volumes", "Kindle"] dbpBase stBase
    "zh" (by decide) (by decide) (by decide) (by decide) (by decide) (by decide) (by decide)
    (by decide) (by decide) (by decide)

/-- C5: a companion file successfully transferred to the device no longer
exists locally.  Mounted transport: `move_file_to_kindle` removes the moved
source file.  Adb transport: after `push_files_to_android` completes without
an exception, neither the lookup database nor the X-Ray database exists
locally any more. -/
theorem companion_local_copy_gone :
    (∀ (fs : FS) (f dbp : Path), fs.isFile f = true → f.dropLast ≠ sidecarOf dbp →
      (move_file_to_kindle fs f dbp).isFile f = false) ∧
    (∀ (w : World) (env : Env) (cfg : SendFileCfg) (pkg adb : String) (st st' : St),
      st.fs.isDir cfg.llPath = false → st.fs.isDir cfg.xRayPath = false →
      push_files_to_android w env cfg pkg adb st = (st', Except.ok ()) →
      st'.fs.pathExists cfg.llPath = false ∧ st'.fs.pathExists cfg.xRayPath = false) := by
  constructor
  · intro fs f dbp hf hout
    exact (move_file_to_kindle_facts fs f dbp hf hout).2.1
  · intro w env cfg pkg adb st st' h1 h2 h
    exact push_files_local_gone w env cfg pkg adb st st' h1 h2 h

/-- Witness for `companion_local_copy_gone`: the fixture lookup database is
gone after the mounted move, and both local databases are gone after the
fixture adb push. -/
theorem companion_local_copy_gone_witness :
    (move_file_to_kindle stBase.fs llBase dbpBase).isFile llBase = false ∧
      ((push_files_to_android wBase envBase cfgBase "com.amazon.kindle" "adb"
          stBase).1.fs.pathExists llBase = false ∧
        (push_files_to_android wBase envBase cfgBase "com.amazon.kindle" "adb"
          stBase).1.fs.pathExists xrBase = false) :=
  ⟨companion_local_copy_gone.1 stBase.fs llBase dbpBase (by decide) (by decide),
    companion_local_copy_gone.2 wBase envBase cfgBase "com.amazon.kindle" "adb" stBase
      (push_files_to_android wBase envBase cfgBase "com.amazon.kindle" "adb" stBase).1
      (by decide) (by decide) (by rfl)⟩

theorem copy_klld_dbl (w : World) (env : Env) (bookLang : String) (dev : Path)
    (adbp : Option String) (st : St) :
    ((copy_klld_to_device w env bookLang dev adbp st).1).deviceBookLanguage =
      st.deviceBookLanguage := by
  unfold copy_klld_to_device
  cases lookupLemmaLang env.supportedLanguages bookLang with
  | none => rfl
  | some lem =>
    dsimp only
    by_cases hk : use_kindle_ww_db lem env.prefs
    · rw [if_pos hk]
    · rw [if_neg hk]
      cases adbp with
      | some adb =>
        dsimp only
        rcases run_subprocess_cases w st [adb, "push",
            pathStr (get_wiktionary_klld_path env.pluginPath lem env.prefs.kindleGlossLang),
            pathStr dev] with ⟨he, _⟩ | ⟨he, _⟩ <;> rw [he] <;> rfl
      | none =>
        dsimp only
        repeat' split
        all_goals rfl

theorem move_files_dbl (w : World) (env : Env) (cfg : SendFileCfg) (mount dbp : Path)
    (st : St) :
    ((move_files_to_kindle w env cfg mount dbp st).1).deviceBookLanguage =
      st.deviceBookLanguage := by
  unfold move_files_to_kindle
  by_cases hp : st.fs.pathExists cfg.llPath = true
  · rw [if_pos hp]
    rcases hcp : copy_klld_to_device w env st.miLanguage
        (mount ++ ["system", "kll", "kll.en.zh.klld"]) none st with ⟨st1, r1⟩
    have h1 : st1.deviceBookLanguage = st.deviceBookLanguage := by
      have h2 := copy_klld_dbl w env st.miLanguage
        (mount ++ ["system", "kll", "kll.en.zh.klld"]) none st
      rw [hcp] at h2
      exact h2
    cases r1
    · simp [bindE, h1]
    · simp [bindE, h1]
  · rw [if_neg hp]
    simp [bindE]

theorem bindE_move_dbl (w : World) (env : Env) (cfg : SendFileCfg) (mount dbp : Path)
    (stY : St) (g : St → Unit → St × Except PyFail Unit)
    (hg : ∀ s u, ((g s u).1).deviceBookLanguage = s.deviceBookLanguage) :
    ((bindE (move_files_to_kindle w env cfg mount dbp stY) g).1).deviceBookLanguage =
      stY.deviceBookLanguage := by
  rcases hmv : move_files_to_kindle w env cfg mount dbp stY with ⟨st2, r2⟩
  have h2 : st2.deviceBookLanguage = stY.deviceBookLanguage := by
    have h3 := move_files_dbl w env cfg mount dbp stY
    rw [hmv] at h3
    exact h3
  cases r2
  · simp [bindE, h2]
  · simp only [bindE]
    rw [hg, h2]

/-- C2: for a transfer where the target book is already on the device, the
format is KFX, the book language is not English and the local lookup database
exists, the metadata of the uploaded (on-device) book has its language forced
to English (`get_asin_etc` is invoked with `set_en_lang` true and writes
`"eng"`), and nothing later in `send_files` undoes it. -/
theorem send_files_forces_english (w : World) (env : Env) (cfg : SendFileCfg) (st : St)
    (b : Bool)
    (hpkg : cfg.packageName = Sum.inr b)
    (hfmt : cfg.bookFmt = "KFX")
    (hll : st.fs.pathExists cfg.llPath = true)
    (hlang : st.miLanguage ≠ "eng")
    (hhas : w.hasBook = true) :
    ((send_files w env cfg Job.noJob st).1).deviceBookLanguage = some "eng" := by
  unfold send_files
  rw [hpkg]
  dsimp only
  rw [if_neg (by decide : ¬ (Job.noJob = Job.failed))]
  rw [if_neg (by decide : ¬ (Job.noJob = Job.succeeded))]
  rw [if_neg (fun h => (by decide : ¬ (Job.noJob = Job.succeeded)) h.1)]
  rw [if_pos ⟨hhas, by rw [hfmt]; decide⟩]
  rw [if_pos rfl]
  have hset : (st.fs.pathExists cfg.llPath && decide (cfg.bookFmt ≠ "EPUB") &&
      decide (st.miLanguage ≠ "eng")) = true := by
    rw [hll, hfmt]
    simp [hlang]
  rw [hset]
  unfold get_asin_etc
  rw [if_pos rfl]
  dsimp only
  cases hupd : w.asinNeedsUpdate
  · rw [if_neg (by simp)]
    rw [bindE_move_dbl]
    intro s u
    dsimp only
    split <;> rfl
  · rw [if_pos rfl]
    rw [bindE_move_dbl]
    intro s u
    dsimp only
    split <;> rfl

/-- Mounted-transport fixture configuration (`package_name` is a boolean,
as `device_connected` returns for a mounted Kindle). -/
def cfgMounted : SendFileCfg := { cfgBase with packageName := Sum.inr true }

/-- Witness for `send_files_forces_english` at the fixture scenario. -/
theorem send_files_forces_english_witness :
    ((send_files wBase envBase cfgMounted Job.noJob stBase).1).deviceBookLanguage =
      some "eng" :=
  send_files_forces_english wBase envBase cfgMounted stBase true rfl rfl (by decide)
    (by decide) rfl

theorem run_subprocess_ok (w : World) (st : St) (cmd : Cmd) (h : w.cmdFails cmd = false) :
    run_subprocess w st cmd =
      ({ st with trace := st.trace ++ [cmd] }, Except.ok (w.cmdStdout cmd)) := by
  unfold run_subprocess
  rw [if_neg (by rw [h]; exact Bool.false_ne_true)]

theorem bindE_error {α β} (st : St) (e : PyFail) (f : St → α → St × Except PyFail β) :
    bindE (st, Except.error e) f = (st, Except.error e) := rfl

theorem getLast?_append_singleton {α} (l : List α) (a : α) : (l ++ [a]).getLast? = some a := by
  simp

/-- Any `CalledProcessError` carried out of `p` names a command that the world
reports as failing, carries exactly that command's captured standard-error,
and `p`'s trace ends with that command. -/
def ErrOk {α} (w : World) (p : St × Except PyFail α) : Prop :=
  ∀ cmd s, p.2 = Except.error (PyFail.calledProcessError cmd s) →
    w.cmdFails cmd = true ∧ s = w.cmdStderr cmd ∧ p.1.trace.getLast? = some cmd

theorem errOk_ok {α} (w : World) (st : St) (a : α) : ErrOk w (st, Except.ok a) := by
  intro c s h
  exact Except.noConfusion h

theorem errOk_indexError (w : World) (st : St) :
    ErrOk w ((st, Except.error PyFail.indexError) : St × Except PyFail Unit) := by
  intro c s h
  injection h with h2
  exact PyFail.noConfusion h2

theorem errOk_unboundLocal {α} (w : World) (st : St) :
    ErrOk w ((st, Except.error PyFail.unboundLocalError) : St × Except PyFail α) := by
  intro c s h
  injection h with h2
  exact PyFail.noConfusion h2

theorem errOk_fileNotFound {α} (w : World) (st : St) :
    ErrOk w ((st, Except.error PyFail.fileNotFoundError) : St × Except PyFail α) := by
  intro c s h
  injection h with h2
  exact PyFail.noConfusion h2

theorem errOk_run (w : World) (st : St) (cmd : Cmd) : ErrOk w (run_subprocess w st cmd) := by
  intro c s h
  rcases run_subprocess_cases w st cmd with ⟨he, hf⟩ | ⟨he, hf⟩
  · rw [he] at h
    exact Except.noConfusion h
  · rw [he] at h
    injection h with h2
    injection h2 with h3 h4
    subst h3
    subst h4
    exact ⟨hf, rfl, by rw [he]; exact getLast?_append_singleton _ _⟩

theorem errOk_bindE {α β} (w : World) (p : St × Except PyFail α)
    (f : St → α → St × Except PyFail β)
    (hp : ErrOk w p) (hf : ∀ st a, ErrOk w (f st a)) : ErrOk w (bindE p f) := by
  intro c s h
  rcases p with ⟨st, r⟩
  cases r with
  | error e =>
    rw [bindE_error] at h
    injection h with h2
    exact hp c s (by simp [h2])
  | ok a =>
    rw [bindE_ok] at h
    exact hf st a c s h

theorem errOk_copy_klld (w : World) (env : Env) (bookLang : String) (dev : Path)
    (adbp : Option String) (st : St) :
    ErrOk w (copy_klld_to_device w env bookLang dev adbp st) := by
  unfold copy_klld_to_device
  cases lookupLemmaLang env.supportedLanguages bookLang with
  | none => exact errOk_unboundLocal w st
  | some lem =>
    dsimp only
    by_cases hk : use_kindle_ww_db lem env.prefs
    · rw [if_pos hk]
      exact errOk_ok w st ()
    · rw [if_neg hk]
      cases adbp with
      | some adb =>
        dsimp only
        exact errOk_bindE w _ _ (errOk_run w st _) (fun st a => errOk_ok w st ())
      | none =>
        dsimp only
        repeat' split
        all_goals first
          | exact errOk_ok w _ ()
          | exact errOk_fileNotFound w _

theorem errOk_get_andorid (w : World) (adb pkg : String) (st : St) :
    ErrOk w (get_andorid_folder_ownership_securirty_context w adb pkg st) := by
  unfold get_andorid_folder_ownership_securirty_context
  exact errOk_bindE w _ _ (errOk_run w st _) (fun st a => errOk_ok w st _)

theorem errOk_push (w : World) (env : Env) (cfg : SendFileCfg) (pkg adb : String) (st : St) :
    ErrOk w (push_files_to_android w env cfg pkg adb st) := by
  unfold push_files_to_android
  apply errOk_bindE w _ _ (errOk_run w st _)
  intro s1 a1
  apply errOk_bindE w
  · split
    · exact errOk_bindE w _ _ (errOk_run w s1 _) (fun s a => errOk_ok w _ ())
    · exact errOk_ok w s1 ()
  · intro s2 a2
    split
    · apply errOk_bindE w _ _ (errOk_run w s2 _)
      intro s3 a3
      apply errOk_bindE w _ _ (errOk_run w s3 _)
      intro s4 a4
      apply errOk_bindE w _ _ (errOk_run w s4 _)
      intro s5 a5
      apply errOk_bindE w _ _ (errOk_get_andorid w adb pkg s5)
      intro s6 a6
      dsimp only
      split
      · apply errOk_bindE w _ _ (errOk_run w s6 _)
        intro s7 a7
        apply errOk_bindE w _ _ (errOk_run w s7 _)
        intro s8 a8
        exact errOk_copy_klld w env _ _ _ _
      · exact errOk_indexError w s6
    · exact errOk_ok w s2 ()

/-- C7: when any adb or privileged-shell subprocess exits non-zero during the
android transfer, the raised error carries that command's captured
standard-error, the trace stops at the failing command, and `send_files` shows
the error dialog built from the standard-error plus the traceback while
keeping the state reached at the failure (no rollback) and executing nothing
further. -/
theorem send_files_adb_error (w : World) (env : Env) (cfg : SendFileCfg) (pkg adb : String)
    (job : Job) (st st' : St) (cmd : Cmd) (stderrText : String)
    (hpkg : cfg.packageName = Sum.inl pkg)
    (hadb : w.whichAdb = some adb)
    (hfail : push_files_to_android w env cfg pkg adb st =
      (st', Except.error (PyFail.calledProcessError cmd stderrText))) :
    w.cmdFails cmd = true ∧ stderrText = w.cmdStderr cmd ∧
      st'.trace.getLast? = some cmd ∧
      send_files w env cfg job st =
        ({ st' with out := st'.out ++ [Outcome.errorDialog "adb failed" stderrText (w.tracebackText ++ stderrText)] }, Except.ok ()) := by
  have herr := errOk_push w env cfg pkg adb st cmd stderrText (by rw [hfail])
  obtain ⟨h1, h2, h3⟩ := herr
  rw [hfail] at h3
  refine ⟨h1, h2, h3, ?_⟩
  unfold send_files
  rw [hpkg]
  dsimp only
  rw [hadb]
  dsimp only
  rw [hfail]

/-- World fixture in which every subprocess fails. -/
def wFail : World :=
  { wBase with cmdFails := fun _ => true, cmdStderr := fun _ => "adb: device offline" }

/-- The first command of the fixture adb transfer (book push). -/
def cmdBookFail : Cmd :=
  ["adb", "push", "/lib/Book.kfx", "/sdcard/Android/data/com.amazon.kindle/files//Book.kfx"]

/-- State at the point of the fixture failure: only the first command traced. -/
def stFail : St := { stBase with trace := [cmdBookFail] }

/-- Witness for `send_files_adb_error`: with every command failing, the very
first adb push aborts the transfer and the dialog carries its stderr. -/
theorem send_files_adb_error_witness :
    wFail.cmdFails cmdBookFail = true ∧ "adb: device offline" = wFail.cmdStderr cmdBookFail ∧
      stFail.trace.getLast? = some cmdBookFail ∧
      send_files wFail envBase cfgBase Job.noJob stBase =
        ({ stFail with out := stFail.out ++ [Outcome.errorDialog "adb failed" "adb: device offline" (wFail.tracebackText ++ "adb: device offline")] }, Except.ok ()) :=
  send_files_adb_error wFail envBase cfgBase "com.amazon.kindle" "adb" Job.noJob stBase stFail
    cmdBookFail "adb: device offline" rfl rfl (by rfl)

theorem adb_connected_eq (w : World) (adb : String) (st : St)
    (hok : w.cmdFails [adb, "devices"] = false) :
    adb_connected w adb st = ({ st with trace := st.trace ++ [[adb, "devices"]] },
      Except.ok (strEndsWith (pyStrip (w.cmdStdout [adb, "devices"])) "device")) := by
  unfold adb_connected
  rw [run_subprocess_ok w st _ hok, bindE_ok]

theorem get_package_name_eq (w : World) (adb : String) (st : St)
    (hok : w.cmdFails [adb, "shell", "pm", "list", "packages", "com.amazon.kindle"] = false) :
    get_package_name w adb st =
      ({ st with trace := st.trace ++ [[adb, "shell", "pm", "list", "packages", "com.amazon.kindle"]] },
        Except.ok (
          if 1 < ((splitChars ':' (pyStrip (w.cmdStdout [adb, "shell", "pm", "list", "packages", "com.amazon.kindle"])).data).map String.mk).length then
            some (((splitChars ':' (pyStrip (w.cmdStdout [adb, "shell", "pm", "list", "packages", "com.amazon.kindle"])).data).map String.mk).getD 1 "")
          else none)) := by
  unfold get_package_name
  rw [run_subprocess_ok w st _ hok, bindE_ok]
  dsimp only
  split <;> rfl

/-- C8: with no mounted Kindle and a connected adb device, the prober for the
KFX format returns exactly the package reported by the device's package
manager: `com.amazon.kindle` when that is listed, the China-region
`com.amazon.kindlefc` when that is listed instead, and `False` when the
listing is empty. -/
theorem device_connected_kfx_adb (w : World) (st : St) (adb : String)
    (hnm : w.isDevicePresent = false ∨ w.vendorName ≠ some "KINDLE")
    (hadb : w.whichAdb = some adb)
    (hdev : strEndsWith (pyStrip (w.cmdStdout [adb, "devices"])) "device" = true)
    (hok : ∀ c, w.cmdFails c = false) :
    (pyStrip (w.cmdStdout [adb, "shell", "pm", "list", "packages", "com.amazon.kindle"]) =
        "package:com.amazon.kindle" →
      (device_connected w "KFX" st).2 = Except.ok (DCResult.pkg "com.amazon.kindle")) ∧
    (pyStrip (w.cmdStdout [adb, "shell", "pm", "list", "packages", "com.amazon.kindle"]) =
        "package:com.amazon.kindlefc" →
      (device_connected w "KFX" st).2 = Except.ok (DCResult.pkg "com.amazon.kindlefc")) ∧
    (pyStrip (w.cmdStdout [adb, "shell", "pm", "list", "packages", "com.amazon.kindle"]) = "" →
      (device_connected w "KFX" st).2 = Except.ok (DCResult.bool false)) := by
  have htail : device_connected w "KFX" st = device_connected_tail w "KFX" st := by
    unfold device_connected
    cases hpres : w.isDevicePresent with
    | false => rw [if_neg (by simp)]
    | true =>
      rw [if_pos rfl]
      dsimp only
      rw [if_neg (by decide : ¬ (("KFX" : String) = "EPUB"))]
      rcases hnm with hnp | hv
      · rw [hnp] at hpres
        cases hpres
      · rw [if_neg hv]
  rw [htail]
  unfold device_connected_tail
  rw [if_pos rfl, hadb]
  try dsimp only
  rw [adb_connected_eq w adb st (hok _), bindE_ok]
  try dsimp only
  rw [if_pos hdev]
  rw [get_package_name_eq w adb _ (hok _), bindE_ok]
  try dsimp only
  refine ⟨?_, ?_, ?_⟩ <;> intro hstd <;> rw [hstd] <;> rfl

/-- Adb-probing world fixture: an adb device answers, and the package manager
lists the mainline Kindle app. -/
def wProbe : World := { wBase with
  cmdStdout := fun c =>
    if c = ["adb", "devices"] then "List of devices attached\nemulator-5554\tdevice"
    else "package:com.amazon.kindle" }

/-- Witness for `device_connected_kfx_adb` at the fixture world. -/
theorem device_connected_kfx_adb_witness :
    (device_connected wProbe "KFX" stBase).2 = Except.ok (DCResult.pkg "com.amazon.kindle") :=
  (device_connected_kfx_adb wProbe stBase "adb" (Or.inl rfl) rfl (by decide)
    (fun _ => rfl)).1 (by decide)

theorem adb_connected_out (w : World) (adb : String) (st : St) :
    ((adb_connected w adb st).1).out = st.out := by
  unfold adb_connected
  rcases run_subprocess_cases w st [adb, "devices"] with ⟨he, _⟩ | ⟨he, _⟩ <;> rw [he] <;> rfl

theorem get_package_name_out (w : World) (adb : String) (st : St) :
    ((get_package_name w adb st).1).out = st.out := by
  unfold get_package_name
  rcases run_subprocess_cases w st [adb, "shell", "pm", "list", "packages", "com.amazon.kindle"]
    with ⟨he, _⟩ | ⟨he, _⟩ <;> rw [he]
  · rw [bindE_ok]
    dsimp only
    split <;> rfl
  · rfl

theorem device_connected_tail_out (w : World) (fmt : String) (st : St) :
    ((device_connected_tail w fmt st).1).out = st.out := by
  unfold device_connected_tail
  by_cases hf : fmt = "KFX"
  · rw [if_pos hf]
    cases hwa : w.whichAdb with
    | none => rfl
    | some adb =>
      dsimp only
      rcases hac : adb_connected w adb st with ⟨st1, r1⟩
      have hout1 : st1.out = st.out := by
        have h := adb_connected_out w adb st
        rw [hac] at h
        exact h
      cases r1 with
      | error e =>
        rw [bindE_error]
        exact hout1
      | ok conn =>
        rw [bindE_ok]
        try dsimp only
        cases conn with
        | false =>
          rw [if_neg (by simp)]
          exact hout1
        | true =>
          rw [if_pos rfl]
          rcases hgp : get_package_name w adb st1 with ⟨st2, r2⟩
          have hout2 : st2.out = st1.out := by
            have h := get_package_name_out w adb st1
            rw [hgp] at h
            exact h
          cases r2 with
          | error e =>
            rw [bindE_error]
            exact hout2.trans hout1
          | ok p =>
            rw [bindE_ok]
            try dsimp only
            cases p <;> exact hout2.trans hout1
  · rw [if_neg hf]

/-- C10: with a device present that is not Kindle-branded, the prober returns
mounted-available (`True`) for the EPUB format, returns not-connected
(`False`) for every format other than EPUB and KFX, and never shows the EPUB
conversion dialog (no GUI call at all: `out` is unchanged for every format). -/
theorem device_connected_non_kindle (w : World) (st : St)
    (hpres : w.isDevicePresent = true)
    (hv : w.vendorName ≠ some "KINDLE") :
    (device_connected w "EPUB" st).2 = Except.ok (DCResult.bool true) ∧
    (∀ fmt, fmt ≠ "EPUB" → fmt ≠ "KFX" →
      device_connected w fmt st = (st, Except.ok (DCResult.bool false))) ∧
    (∀ fmt, ((device_connected w fmt st).1).out = st.out) := by
  refine ⟨?_, ?_, ?_⟩
  · unfold device_connected
    rw [if_pos hpres]
    dsimp only
    rw [if_pos rfl, if_neg hv]
  · intro fmt h1 h2
    unfold device_connected
    rw [if_pos hpres]
    dsimp only
    rw [if_neg h1, if_neg hv]
    unfold device_connected_tail
    rw [if_neg h2]
  · intro fmt
    unfold device_connected
    rw [if_pos hpres]
    dsimp only
    by_cases hf : fmt = "EPUB"
    · rw [if_pos hf, if_neg hv]
    · rw [if_neg hf, if_neg hv]
      exact device_connected_tail_out w fmt st

/-- Non-Kindle device fixture. -/
def wOther : World := { wBase with isDevicePresent := true, vendorName := some "OTHER" }

/-- Witness for `device_connected_non_kindle`: EPUB yields `True`, another
format yields `False`, and no dialog is recorded. -/
theorem device_connected_non_kindle_witness :
    (device_connected wOther "EPUB" stBase).2 = Except.ok (DCResult.bool true) ∧
      device_connected wOther "AZW3" stBase = (stBase, Except.ok (DCResult.bool false)) ∧
      ((device_connected wOther "MOBI" stBase).1).out = stBase.out :=
  ⟨(device_connected_non_kindle wOther stBase rfl (by decide)).1,
    (device_connected_non_kindle wOther stBase rfl (by decide)).2.1 "AZW3" (by decide) (by decide),
    (device_connected_non_kindle wOther stBase rfl (by decide)).2.2 "MOBI"⟩

/-- Collapse every run of consecutive slash characters to a single slash: two
strings with the same image denote the same POSIX path. -/
def collapseSlashes : List Char → List Char
  | [] => []
  | c :: rest =>
    match rest with
    | [] => [c]
    | d :: _ =>
      if c = '/' ∧ d = '/' then collapseSlashes rest
      else c :: collapseSlashes rest

/-- POSIX view of a path string: consecutive slashes collapsed. -/
def normalizeSlashes (s : String) : String := ⟨collapseSlashes s.data⟩

theorem toString_string (s : String) : toString s = s := rfl

theorem collapseSlashes_cons_cons (c d : Char) (l : List Char) :
    collapseSlashes (c :: d :: l) =
      if c = '/' ∧ d = '/' then collapseSlashes (d :: l)
      else c :: collapseSlashes (d :: l) := rfl

theorem collapse_app : ∀ (l₁ l₂ : List Char),
    collapseSlashes (l₁ ++ '/' :: '/' :: l₂) = collapseSlashes (l₁ ++ '/' :: l₂) := by
  intro l₁ l₂
  induction l₁ with
  | nil =>
    rw [List.nil_append, List.nil_append, collapseSlashes_cons_cons,
      if_pos ⟨rfl, rfl⟩]
  | cons c l₁ ih =>
    cases l₁ with
    | nil =>
      simp only [List.cons_append, List.nil_append]
      simp only [List.nil_append] at ih
      rw [collapseSlashes_cons_cons c '/', collapseSlashes_cons_cons c '/', ih]
    | cons d l₁' =>
      simp only [List.cons_append]
      rw [collapseSlashes_cons_cons, collapseSlashes_cons_cons]
      simp only [List.cons_append] at ih
      by_cases hcd : c = '/' ∧ d = '/'
      · rw [if_pos hcd, if_pos hcd, ih]
      · rw [if_neg hcd, if_neg hcd, ih]

/-- The doubled slash in the book destination written by
`push_files_to_android` collapses to the single-slash spelling of the spec. -/
theorem normalize_dbl_slash (pkg n : String) :
    normalizeSlashes (s!"/sdcard/Android/data/{pkg}/files/" ++ "/" ++ n) =
      normalizeSlashes ("/sdcard/Android/data/" ++ pkg ++ "/files/" ++ n) := by
  unfold normalizeSlashes
  congr 1
  have h1 : (s!"/sdcard/Android/data/{pkg}/files/" ++ "/" ++ n).data =
      ("/sdcard/Android/data/".data ++ pkg.data ++ "/files".data) ++ '/' :: '/' :: n.data := by
    simp [String.data_append, toString_string]
  have h2 : ("/sdcard/Android/data/" ++ pkg ++ "/files/" ++ n).data =
      ("/sdcard/Android/data/".data ++ pkg.data ++ "/files".data) ++ '/' :: n.data := by
    simp [String.data_append]
  rw [h1, h2]
  exact collapse_app _ _

/-- State extension: the command trace of `st` is a prefix of that of `st'`. -/
def TrExt (st st' : St) : Prop := ∃ t, st'.trace = st.trace ++ t

theorem trExt_same {st st' : St} (h : st'.trace = st.trace) : TrExt st st' :=
  ⟨[], by rw [h, List.append_nil]⟩

theorem trExt_trans {a b c : St} (h1 : TrExt a b) (h2 : TrExt b c) : TrExt a c := by
  obtain ⟨t1, e1⟩ := h1
  obtain ⟨t2, e2⟩ := h2
  exact ⟨t1 ++ t2, by rw [e2, e1, List.append_assoc]⟩

theorem trExt_run (w : World) (st : St) (cmd : Cmd) :
    TrExt st (run_subprocess w st cmd).1 := by
  rcases run_subprocess_cases w st cmd with ⟨he, _⟩ | ⟨he, _⟩ <;> rw [he] <;>
    exact ⟨[cmd], rfl⟩

theorem trExt_bindE {α β} {st0 : St} (p : St × Except PyFail α)
    (f : St → α → St × Except PyFail β) (h1 : TrExt st0 p.1)
    (h2 : ∀ s a, TrExt s (f s a).1) : TrExt st0 (bindE p f).1 := by
  rcases p with ⟨s, r⟩
  cases r with
  | error e => exact h1
  | ok a => exact trExt_trans h1 (h2 s a)

theorem trExt_get_andorid (w : World) (adb pkg : String) (st : St) :
    TrExt st (get_andorid_folder_ownership_securirty_context w adb pkg st).1 := by
  unfold get_andorid_folder_ownership_securirty_context
  exact trExt_bindE _ _ (trExt_run w st _) (fun s a => trExt_same rfl)

theorem trExt_copy_klld (w : World) (env : Env) (bookLang : String) (dev : Path)
    (adbPath : Option String) (st : St) :
    TrExt st (copy_klld_to_device w env bookLang dev adbPath st).1 := by
  unfold copy_klld_to_device
  cases lookupLemmaLang env.supportedLanguages bookLang with
  | none => exact trExt_same rfl
  | some lem =>
    dsimp only
    by_cases hk : use_kindle_ww_db lem env.prefs
    · rw [if_pos hk]
      exact trExt_same rfl
    · rw [if_neg hk]
      cases adbPath with
      | some adb =>
        exact trExt_bindE _ _ (trExt_run w st _) (fun s a => trExt_same rfl)
      | none =>
        dsimp only
        repeat' split
        all_goals exact trExt_same rfl

theorem bindE_run_head {β} (w : World) (st : St) (cmd : Cmd)
    (f : St → String → St × Except PyFail β)
    (hf : ∀ s a, TrExt s (f s a).1) :
    ∃ t, (bindE (run_subprocess w st cmd) f).1.trace = st.trace ++ cmd :: t := by
  rcases run_subprocess_cases w st cmd with ⟨he, _⟩ | ⟨he, _⟩
  · rw [he, bindE_ok]
    obtain ⟨t, ht⟩ := hf { st with trace := st.trace ++ [cmd] } (w.cmdStdout cmd)
    refine ⟨t, ?_⟩
    rw [ht]
    simp
  · rw [he, bindE_error]
    exact ⟨[], rfl⟩

/-- The adb transfer opens with the book push: its trace always begins (after
the inherited trace) with `adb push <book> <folder>//<basename>`. -/
theorem push_trace_head (w : World) (env : Env) (cfg : SendFileCfg)
    (pkg adb : String) (st : St) :
    ∃ t, (push_files_to_android w env cfg pkg adb st).1.trace
      = st.trace ++ ([adb, "push", cfg.bookPath,
          s!"/sdcard/Android/data/{pkg}/files/" ++ "/" ++ strName cfg.bookPath] :: t) := by
  unfold push_files_to_android
  dsimp only
  apply bindE_run_head
  intro s1 a
  dsimp only
  apply trExt_bindE
  · split
    · apply trExt_bindE _ _ (trExt_run _ _ _)
      intro s2 b
      exact trExt_same rfl
    · exact trExt_same rfl
  · intro s2 b
    dsimp only
    split
    · apply trExt_bindE _ _ (trExt_run _ _ _)
      intro s3 c
      apply trExt_bindE _ _ (trExt_run _ _ _)
      intro s4 d
      apply trExt_bindE _ _ (trExt_run _ _ _)
      intro s5 e
      apply trExt_bindE _ _ (trExt_get_andorid _ _ _ _)
      intro s6 r
      dsimp only
      split
      · apply trExt_bindE _ _ (trExt_run _ _ _)
        intro s7 g
        apply trExt_bindE _ _ (trExt_run _ _ _)
        intro s8 i
        dsimp only
        exact trExt_trans (trExt_same rfl) (trExt_copy_klld _ _ _ _ _ _)
      · exact trExt_same rfl
    · exact trExt_same rfl

/-- C9: on the adb transfer path the book file itself is pushed, by the very
first adb command, to the on-device path
`/sdcard/Android/data/<package>/files/<basename>` where the basename is the
file name of the local book file.  The destination literal the code builds
carries a doubled slash (`files//<basename>`), which collapses to the same
POSIX path as the single-slash spelling of the spec. -/
theorem push_book_destination (w : World) (env : Env) (cfg : SendFileCfg)
    (pkg adb : String) (st : St) :
    ∃ d t, (push_files_to_android w env cfg pkg adb st).1.trace
        = st.trace ++ ([adb, "push", cfg.bookPath, d] :: t)
      ∧ normalizeSlashes d = normalizeSlashes
          ("/sdcard/Android/data/" ++ pkg ++ "/files/" ++ strName cfg.bookPath) := by
  obtain ⟨t, ht⟩ := push_trace_head w env cfg pkg adb st
  exact ⟨_, t, ht, normalize_dbl_slash pkg (strName cfg.bookPath)⟩

/-- Privileged listing command of the Kindle app databases directory as issued
on the `cfgBase` fixture. -/
def lsCmdBase : Cmd :=
  ["adb", "shell", "su", "-c", "ls -ldZ \x27/data/data/com.amazon.kindle/databases/\x27"]

/-- Whitespace-separated fields of the (stripped) output `wBase` reports for
the privileged listing of the databases directory. -/
def lsFieldsBase : List String := pyStrip (wBase.cmdStdout lsCmdBase) |> pySplitWs

/-- C3: on the adb fixture (package `com.amazon.kindle`, ASIN `B01X`,
content-reference `!abc`, lookup database present locally) the transfer pushes
the lookup database to `/sdcard/WordWise.en.B01X._abc.db` (the `!` of the
content-reference replaced by `_`), copies it via privileged shell to
`/data/data/com.amazon.kindle/databases/WordWise.en.B01X._abc.db`, and applies
to that file the owner taken from the third whitespace-separated field and the
security label taken from the fifth field of the privileged `ls -ldZ` listing
of the app databases directory; the listing fields evaluate to `u0_a123` and
`u:object_r:app_data_file:s0`, and the transfer succeeds. -/
theorem push_android_wordwise_scenario :
    (push_files_to_android wBase envBase cfgBase "com.amazon.kindle" "adb" stBase).1.trace
      = [["adb", "push", "/lib/Book.kfx",
            "/sdcard/Android/data/com.amazon.kindle/files//Book.kfx"],
         ["adb", "push", "/lib/XRAY.entities.B01X.asc",
            "/sdcard/Android/data/com.amazon.kindle/files//B01X/XRAY.B01X.!abc.db"],
         ["adb", "root"],
         ["adb", "push", "/lib/LanguageLayer.en.B01X.kll",
            "/sdcard/WordWise.en.B01X._abc.db"],
         ["adb", "shell", "su", "-c",
            "cp /sdcard/WordWise.en.B01X._abc.db /data/data/com.amazon.kindle/databases/WordWise.en.B01X._abc.db"],
         lsCmdBase,
         ["adb", "shell", "su", "-c",
            "chown " ++ lsFieldsBase.getD 2 "" ++ ":" ++ lsFieldsBase.getD 2 ""
              ++ " /data/data/com.amazon.kindle/databases/WordWise.en.B01X._abc.db"],
         ["adb", "shell", "su", "-c",
            "chcon " ++ lsFieldsBase.getD 4 ""
              ++ " /data/data/com.amazon.kindle/databases/WordWise.en.B01X._abc.db"],
         ["adb", "push", "/plugin/data/wordwise/kll.zh.zh.klld",
            "/data/data/com.amazon.kindle/databases/wordwise/WordWise.kll.en.zh.db"]]
    ∧ lsFieldsBase.getD 2 "" = "u0_a123"
    ∧ lsFieldsBase.getD 4 "" = "u:object_r:app_data_file:s0"
    ∧ (push_files_to_android wBase envBase cfgBase "com.amazon.kindle" "adb" stBase).2
        = Except.ok () := by
  refine ⟨?_, rfl, rfl, rfl⟩
  rfl
